import Mathlib

/-!
Shallow embedding of the `http-share` HTTP engine (`src/lib.rs`) and proofs
about its request parsing, authorization verification and partial-content
streaming.  Rust `&str`/`String` values are modelled as `List Char`, byte
buffers as `List Nat` (each entry < 256), and fallible/panicking code as
`Option`/`Except`.
-/

set_option maxRecDepth 10000

/-- Strings of the Rust source are modelled as lists of characters. -/
abbrev Str := List Char

/-- Coercion of a Lean string literal to the `Str` model. -/
def strL (s : String) : Str := s.data

/-- Model of Rust `str::split` with a single-`char` pattern: the list of
segments between occurrences of `sep` (at least one segment is returned). -/
def splitChar (sep : Char) : Str → List Str
  | [] => [[]]
  | c :: rest =>
    match splitChar sep rest with
    | [] => [[]]
    | h :: t => if c = sep then [] :: h :: t else (c :: h) :: t

/-- Model of Rust `str::split` with a two-character pattern `[a, b]`
(used for splitting on `"\r\n"`): segments between non-overlapping
occurrences, scanning left to right. -/
def split2 (a b : Char) : Str → List Str
  | [] => [[]]
  | [c] => [[c]]
  | c1 :: c2 :: rest =>
    if c1 = a ∧ c2 = b then [] :: split2 a b rest
    else match split2 a b (c2 :: rest) with
      | [] => [[c1]]
      | h :: t => (c1 :: h) :: t

/-- Model of `http_request.split("\r\n")`: the request headers as lines. -/
def splitCRLF (s : Str) : List Str := split2 '\r' '\n' s

/-- Model of Rust `str::starts_with`. -/
def isPre : Str → Str → Bool
  | [], _ => true
  | _ :: _, [] => false
  | p :: ps, c :: cs => p == c && isPre ps cs

/-- Everything after the first occurrence of `sep` in `s` (`none` when `sep`
does not occur).  `s.split(sep).nth(1)` of the Rust source equals
`(afterFirst sep s).map (takeUntil sep)`. -/
def afterFirst (sep : Str) : Str → Option Str
  | [] => none
  | c :: rest =>
    if isPre sep (c :: rest) then some (rest.drop (sep.length - 1))
    else afterFirst sep rest

/-- Longest prefix of `s` not running into an occurrence of `sep`; this is the
segment a Rust `str::split sep` iterator would yield next. -/
def takeUntil (sep : Str) : Str → Str
  | [] => []
  | c :: rest => if isPre sep (c :: rest) then [] else c :: takeUntil sep rest

/-- Model of Rust `str::contains` for a non-empty needle (substring test). -/
def containsSub (needle s : Str) : Bool := (afterFirst needle s).isSome

/-- Model of Rust `str::strip_prefix` with a string pattern. -/
def stripPreStr (p s : Str) : Option Str :=
  if isPre p s then some (s.drop p.length) else none

/-- Model of Rust `str::strip_prefix` with a single-char pattern. -/
def stripPreChar (c : Char) : Str → Option Str
  | [] => none
  | x :: rest => if x = c then some rest else none

/-- Model of Rust `str::strip_suffix` with a single-char pattern. -/
def stripSufChar (c : Char) (s : Str) : Option Str :=
  match s.reverse with
  | [] => none
  | x :: rest => if x = c then some rest.reverse else none

/-- The White_Space code points recognised by Rust `char::is_whitespace`. -/
def isRustWs (c : Char) : Bool :=
  c.toNat = 0x9 || c.toNat = 0xa || c.toNat = 0xb || c.toNat = 0xc ||
  c.toNat = 0xd || c.toNat = 0x20 || c.toNat = 0x85 || c.toNat = 0xa0 ||
  c.toNat = 0x1680 || (0x2000 ≤ c.toNat && c.toNat ≤ 0x200a) ||
  c.toNat = 0x2028 || c.toNat = 0x2029 || c.toNat = 0x202f ||
  c.toNat = 0x205f || c.toNat = 0x3000

/-- Model of Rust `str::trim`. -/
def trimStr (s : Str) : Str :=
  ((s.dropWhile isRustWs).reverse.dropWhile isRustWs).reverse

/-- Value of a decimal ASCII digit. -/
def decDigit (c : Char) : Option Nat :=
  if 48 ≤ c.toNat ∧ c.toNat ≤ 57 then some (c.toNat - 48) else none

/-- Value of a hexadecimal ASCII digit (both cases), as accepted by
Rust `from_str_radix(_, 16)`. -/
def hexDigitVal (c : Char) : Option Nat :=
  if 48 ≤ c.toNat ∧ c.toNat ≤ 57 then some (c.toNat - 48)
  else if 97 ≤ c.toNat ∧ c.toNat ≤ 102 then some (c.toNat - 87)
  else if 65 ≤ c.toNat ∧ c.toNat ≤ 70 then some (c.toNat - 55)
  else none

/-- Accumulate digit values in base `base`; fails on a non-digit. -/
def digitsVal (base : Nat) (digitOf : Char → Option Nat) : Str → Nat → Option Nat
  | [], acc => some acc
  | c :: rest, acc =>
    match digitOf c with
    | some d => digitsVal base digitOf rest (acc * base + d)
    | none => none

/-- Model of Rust `str::parse::<u64>`: an optional leading `+`, one or more
decimal digits, value below `2 ^ 64` (overflow is an error). -/
def parse_u64 (s : Str) : Option Nat :=
  let t := match s with
    | '+' :: r => r
    | _ => s
  match t with
  | [] => none
  | _ =>
    match digitsVal 10 decDigit t 0 with
    | some v => if v < 2 ^ 64 then some v else none
    | none => none

/-- Model of Rust `u128::from_str_radix(s, 16)`: an optional leading `+`, one
or more hex digits, value below `2 ^ 128` (overflow is an error). -/
def parse_hex_u128 (s : Str) : Option Nat :=
  let t := match s with
    | '+' :: r => r
    | _ => s
  match t with
  | [] => none
  | _ =>
    match digitsVal 16 hexDigitVal t 0 with
    | some v => if v < 2 ^ 128 then some v else none
    | none => none

/-- Decimal digit character of a value below 10. -/
def decDigitChar (n : Nat) : Char := Char.ofNat (48 + n)

/-- Digits of `n` in base 10, most significant first (fuel-driven so that it
reduces in the kernel). -/
def natToStrAux : Nat → Nat → Str
  | 0, _ => []
  | fuel + 1, n =>
    if n < 10 then [decDigitChar n]
    else natToStrAux fuel (n / 10) ++ [decDigitChar (n % 10)]

/-- Model of Rust `{}` formatting of an unsigned integer. -/
def natToStr (n : Nat) : Str := natToStrAux (n + 1) n

/-!
## Base64 (`base64` crate, standard alphabet) and UTF-8 (`String::from_utf8`)

The `base64` and `md5` crates and `String::from_utf8` are external libraries
used by `src/lib.rs`; they are modelled here from their standard
specifications (RFC 4648, RFC 1321, UTF-8 validation as in Rust's stdlib).
-/

/-- Code point of the base64 character for a sextet value. -/
def b64CharCode (n : Nat) : Nat :=
  if n < 26 then 65 + n
  else if n < 52 then 97 + (n - 26)
  else if n < 62 then 48 + (n - 52)
  else if n = 62 then 43
  else 47

/-- Base64 character of a sextet value. -/
def b64Char (n : Nat) : Char := Char.ofNat (b64CharCode n)

/-- Sextet value of a code point, `none` for characters outside the
standard alphabet (also for `=`). -/
def b64ValCode (m : Nat) : Option Nat :=
  if 65 ≤ m ∧ m ≤ 90 then some (m - 65)
  else if 97 ≤ m ∧ m ≤ 122 then some (26 + (m - 97))
  else if 48 ≤ m ∧ m ≤ 57 then some (52 + (m - 48))
  else if m = 43 then some 62
  else if m = 47 then some 63
  else none

/-- Sextet value of a base64 character. -/
def b64Val (c : Char) : Option Nat := b64ValCode c.toNat

/-- Standard (padded) base64 encoding of a byte list, as produced by
`base64::encode`. -/
def base64EncodeList : List Nat → List Char
  | [] => []
  | [a] => [b64Char (a / 4), b64Char (a % 4 * 16), '=', '=']
  | [a, b] => [b64Char (a / 4), b64Char (a % 4 * 16 + b / 16), b64Char (b % 16 * 4), '=']
  | a :: b :: c :: rest =>
    b64Char (a / 4) :: b64Char (a % 4 * 16 + b / 16) ::
    b64Char (b % 16 * 4 + c / 64) :: b64Char (c % 64) :: base64EncodeList rest

/-- Model of `base64::decode` (standard config): groups of four symbols, with
optional canonical `=` padding in the final group, rejecting non-alphabet
symbols, a trailing group of one symbol, non-zero trailing bits, and padding
followed by further symbols. -/
def base64Decode : List Char → Option (List Nat)
  | [] => some []
  | [c1, c2] => do
    let v1 ← b64Val c1
    let v2 ← b64Val c2
    if v2 % 16 = 0 then some [v1 * 4 + v2 / 16] else none
  | [c1, c2, c3] => do
    let v1 ← b64Val c1
    let v2 ← b64Val c2
    let v3 ← b64Val c3
    if v3 % 4 = 0 then some [v1 * 4 + v2 / 16, v2 % 16 * 16 + v3 / 4] else none
  | c1 :: c2 :: c3 :: c4 :: rest => do
    let v1 ← b64Val c1
    let v2 ← b64Val c2
    if c3 = '=' then
      if c4 = '=' ∧ rest = [] ∧ v2 % 16 = 0 then some [v1 * 4 + v2 / 16] else none
    else do
      let v3 ← b64Val c3
      if c4 = '=' then
        if rest = [] ∧ v3 % 4 = 0 then some [v1 * 4 + v2 / 16, v2 % 16 * 16 + v3 / 4]
        else none
      else do
        let v4 ← b64Val c4
        let tail ← base64Decode rest
        some ((v1 * 4 + v2 / 16) :: (v2 % 16 * 16 + v3 / 4) :: (v3 % 4 * 64 + v4) :: tail)
  | _ => none

/-- UTF-8 bytes of a single code point. -/
def utf8EncodeChar (n : Nat) : List Nat :=
  if n < 0x80 then [n]
  else if n < 0x800 then [0xc0 + n / 0x40, 0x80 + n % 0x40]
  else if n < 0x10000 then
    [0xe0 + n / 0x1000, 0x80 + n / 0x40 % 0x40, 0x80 + n % 0x40]
  else
    [0xf0 + n / 0x40000, 0x80 + n / 0x1000 % 0x40, 0x80 + n / 0x40 % 0x40,
     0x80 + n % 0x40]

/-- UTF-8 bytes of a string (how Rust stores a `String`/`str`). -/
def utf8Encode (s : Str) : List Nat := s.flatMap (fun c => utf8EncodeChar c.toNat)

/-- Decode a two-byte UTF-8 tail (leading byte `0xc2..0xdf`). -/
def utf8Two (b0 : Nat) : List Nat → Option (Nat × List Nat)
  | b1 :: r2 =>
    if 0x80 ≤ b1 ∧ b1 < 0xc0 then
      some ((b0 - 0xc0) * 0x40 + (b1 - 0x80), r2)
    else none
  | [] => none

/-- Decode a three-byte UTF-8 tail (leading byte `0xe0..0xef`), rejecting
overlong forms (`0xe0` needs `b1 ≥ 0xa0`) and surrogates (`0xed` needs
`b1 < 0xa0`). -/
def utf8Three (b0 : Nat) : List Nat → Option (Nat × List Nat)
  | b1 :: b2 :: r3 =>
    if (if b0 = 0xe0 then 0xa0 else 0x80) ≤ b1 ∧
       b1 < (if b0 = 0xed then 0xa0 else 0xc0) ∧
       0x80 ≤ b2 ∧ b2 < 0xc0 then
      some ((b0 - 0xe0) * 0x1000 + (b1 - 0x80) * 0x40 + (b2 - 0x80), r3)
    else none
  | _ => none

/-- Decode a four-byte UTF-8 tail (leading byte `0xf0..0xf4`), rejecting
overlong forms (`0xf0` needs `b1 ≥ 0x90`) and code points above `0x10FFFF`
(`0xf4` needs `b1 < 0x90`). -/
def utf8Four (b0 : Nat) : List Nat → Option (Nat × List Nat)
  | b1 :: b2 :: b3 :: r4 =>
    if (if b0 = 0xf0 then 0x90 else 0x80) ≤ b1 ∧
       b1 < (if b0 = 0xf4 then 0x90 else 0xc0) ∧
       0x80 ≤ b2 ∧ b2 < 0xc0 ∧ 0x80 ≤ b3 ∧ b3 < 0xc0 then
      some ((b0 - 0xf0) * 0x40000 + (b1 - 0x80) * 0x1000 +
            (b2 - 0x80) * 0x40 + (b3 - 0x80), r4)
    else none
  | _ => none

/-- Decode one UTF-8 sequence from the front of a byte list, rejecting
overlong forms, surrogates and code points above `0x10FFFF`, as Rust's
`String::from_utf8` does: the code point and the remaining bytes. -/
def utf8Step : List Nat → Option (Nat × List Nat)
  | [] => none
  | b0 :: rest =>
    if b0 < 0x80 then some (b0, rest)
    else if b0 < 0xc2 then none
    else if b0 < 0xe0 then utf8Two b0 rest
    else if b0 < 0xf0 then utf8Three b0 rest
    else if b0 < 0xf5 then utf8Four b0 rest
    else none

/-- Decode a whole byte list into code points by iterating `utf8Step`
(fuel-driven so that it reduces in the kernel; at least one byte is
consumed per step, so `bs.length` fuel always suffices). -/
def utf8DecodeLoop : Nat → List Nat → Option (List Nat)
  | _, [] => some []
  | 0, _ :: _ => none
  | fuel + 1, b0 :: rest =>
    (utf8Step (b0 :: rest)).bind (fun sr =>
      (utf8DecodeLoop fuel sr.2).map (fun l => sr.1 :: l))

/-- Strict UTF-8 decoding of a byte list into code points. -/
def utf8DecodeList (bs : List Nat) : Option (List Nat) :=
  utf8DecodeLoop bs.length bs

/-- Model of Rust `String::from_utf8`. -/
def rustStringFromUtf8 (bs : List Nat) : Option Str :=
  (utf8DecodeList bs).map (List.map Char.ofNat)

/-!
## MD5 (RFC 1321), the hash used by the `md5` crate
-/

/-- The 64 MD5 sine-derived constants. -/
def md5K : List Nat :=
  [0xd76aa478, 0xe8c7b756, 0x242070db, 0xc1bdceee,
   0xf57c0faf, 0x4787c62a, 0xa8304613, 0xfd469501,
   0x698098d8, 0x8b44f7af, 0xffff5bb1, 0x895cd7be,
   0x6b901122, 0xfd987193, 0xa679438e, 0x49b40821,
   0xf61e2562, 0xc040b340, 0x265e5a51, 0xe9b6c7aa,
   0xd62f105d, 0x02441453, 0xd8a1e681, 0xe7d3fbc8,
   0x21e1cde6, 0xc33707d6, 0xf4d50d87, 0x455a14ed,
   0xa9e3e905, 0xfcefa3f8, 0x676f02d9, 0x8d2a4c8a,
   0xfffa3942, 0x8771f681, 0x6d9d6122, 0xfde5380c,
   0xa4beea44, 0x4bdecfa9, 0xf6bb4b60, 0xbebfbc70,
   0x289b7ec6, 0xeaa127fa, 0xd4ef3085, 0x04881d05,
   0xd9d4d039, 0xe6db99e5, 0x1fa27cf8, 0xc4ac5665,
   0xf4292244, 0x432aff97, 0xab9423a7, 0xfc93a039,
   0x655b59c3, 0x8f0ccc92, 0xffeff47d, 0x85845dd1,
   0x6fa87e4f, 0xfe2ce6e0, 0xa3014314, 0x4e0811a1,
   0xf7537e82, 0xbd3af235, 0x2ad7d2bb, 0xeb86d391]

/-- The 64 MD5 per-round left-rotation amounts. -/
def md5S : List Nat :=
  [7, 12, 17, 22, 7, 12, 17, 22, 7, 12, 17, 22, 7, 12, 17, 22,
   5, 9, 14, 20, 5, 9, 14, 20, 5, 9, 14, 20, 5, 9, 14, 20,
   4, 11, 16, 23, 4, 11, 16, 23, 4, 11, 16, 23, 4, 11, 16, 23,
   6, 10, 15, 21, 6, 10, 15, 21, 6, 10, 15, 21, 6, 10, 15, 21]

/-- Left rotation of a 32-bit word. -/
def rotl32 (x s : Nat) : Nat := (x * 2 ^ s + x / 2 ^ (32 - s)) % 2 ^ 32

/-- The MD5 round function for operation `i`. -/
def md5F (i b c d : Nat) : Nat :=
  if i < 16 then (b &&& c) ||| ((2 ^ 32 - 1 - b) &&& d)
  else if i < 32 then (d &&& b) ||| ((2 ^ 32 - 1 - d) &&& c)
  else if i < 48 then b ^^^ c ^^^ d
  else c ^^^ (b ||| (2 ^ 32 - 1 - d))

/-- Message-word index used by MD5 operation `i`. -/
def md5G (i : Nat) : Nat :=
  if i < 16 then i
  else if i < 32 then (5 * i + 1) % 16
  else if i < 48 then (3 * i + 5) % 16
  else 7 * i % 16

/-- One of the 64 MD5 operations. -/
def md5Step (M : List Nat) (st : Nat × Nat × Nat × Nat) (i : Nat) :
    Nat × Nat × Nat × Nat :=
  let a := st.1
  let b := st.2.1
  let c := st.2.2.1
  let d := st.2.2.2
  let f := (md5F i b c d + a + md5K.getD i 0 + M.getD (md5G i) 0) % 2 ^ 32
  (d, (b + rotl32 f (md5S.getD i 0)) % 2 ^ 32, b, c)

/-- Process one 64-byte block. -/
def md5Block (st : Nat × Nat × Nat × Nat) (block : List Nat) :
    Nat × Nat × Nat × Nat :=
  let M := (List.range 16).map (fun j =>
    block.getD (4 * j) 0 + 256 * block.getD (4 * j + 1) 0 +
    65536 * block.getD (4 * j + 2) 0 + 16777216 * block.getD (4 * j + 3) 0)
  let r := (List.range 64).foldl (md5Step M) st
  ((st.1 + r.1) % 2 ^ 32, (st.2.1 + r.2.1) % 2 ^ 32,
   (st.2.2.1 + r.2.2.1) % 2 ^ 32, (st.2.2.2 + r.2.2.2) % 2 ^ 32)

/-- Fold over the 64-byte blocks of a padded message (fuel counts blocks). -/
def md5Blocks : Nat → (Nat × Nat × Nat × Nat) → List Nat → Nat × Nat × Nat × Nat
  | 0, st, _ => st
  | fuel + 1, st, msg => md5Blocks fuel (md5Block st (msg.take 64)) (msg.drop 64)

/-- Little-endian byte representation (`k` bytes) of a value. -/
def leBytes : Nat → Nat → List Nat
  | 0, _ => []
  | k + 1, v => v % 256 :: leBytes k (v / 256)

/-- The MD5 digest (16 bytes) of a byte message; model of `md5::compute`. -/
def md5Bytes (msg : List Nat) : List Nat :=
  let len := msg.length
  let padded := msg ++ 0x80 :: List.replicate ((119 - len % 64) % 64) 0 ++
    leBytes 8 (len * 8)
  let st := md5Blocks (padded.length / 64)
    (0x67452301, 0xefcdab89, 0x98badcfe, 0x10325476) padded
  leBytes 4 st.1 ++ leBytes 4 st.2.1 ++ leBytes 4 st.2.2.1 ++ leBytes 4 st.2.2.2

/-- Lowercase hex digit character of a value below 16. -/
def hexDigitChar (n : Nat) : Char :=
  Char.ofNat (if n < 10 then 48 + n else 87 + n)

/-- Lowercase hex string of a digest; model of `{:x}` on `md5::Digest`. -/
def digestHex (digest : List Nat) : Str :=
  digest.flatMap (fun b => [hexDigitChar (b / 16), hexDigitChar (b % 16)])

/-!
## `HTTPRequest` accessors (`src/lib.rs`, lines 24-73)
-/

/-- Model of `HTTPRequest::get_get_path` (lib.rs line 24): second
`split(' ')` segment of the whole request string, defaulting to `"/"`. -/
def get_get_path (req : Str) : Str :=
  ((splitChar ' ' req)[1]?).getD (strL "/")

/-- Model of `HTTPRequest::contains_range_header` (lib.rs line 31):
substring test for `"Range: bytes="`. -/
def contains_range_header (req : Str) : Bool :=
  containsSub (strL "Range: bytes=") req

/-- Model of `HTTPRequest::get_requested_range` (lib.rs line 43).  The outer
`none` models a panic (`unwrap`/`expect` failing): no line with the prefix,
no `-` separator, or an unparsable start offset. -/
def get_requested_range (req : Str) : Option (Nat × Option Nat) := do
  let line ← (splitCRLF req).find? (fun s => isPre (strL "Range: bytes=") s)
  let range ← stripPreStr (strL "Range: bytes=") line
  let segs := splitChar '-' range
  let startTok ← segs[0]?
  let endTok ← segs[1]?
  let st ← parse_u64 startTok
  some (st, parse_u64 endTok)

/-- Model of `HTTPRequest::get_authorization` (lib.rs line 62). -/
def get_authorization (req : Str) : Option (Str × Str) := do
  let line ← (splitCRLF req).find? (fun s => isPre (strL "Authorization: Basic ") s)
  let payload ← stripPreStr (strL "Authorization: Basic ") line
  let bytes ← base64Decode payload
  let decoded ← rustStringFromUtf8 bytes
  let segs := splitChar ':' decoded
  let uname ← segs[0]?
  let pw ← segs[1]?
  some (uname, pw)

/-!
## `HTTPRequest::verify_digest_authorization` (`src/lib.rs`, lines 105-217)
-/

/-- The errors of `verify_digest_authorization`; the Rust source returns
`Err(String)` with the message given in each constructor's comment. -/
inductive DigestErr : Type where
  /-- "client's request header does not contain substring
  'Authorization: Digest '" (unreachable, guarded by `contains`) -/
  | noAuthHeaderSplit : DigestErr
  /-- "client specified no 'username' in Authorization header field" -/
  | noUsername : DigestErr
  /-- "client specified no 'realm' in Authorization header field" -/
  | noRealm : DigestErr
  /-- "client specified no 'nonce' in Authorization header field" -/
  | noNonce : DigestErr
  /-- "client specified no 'uri' in Authorization header field" -/
  | noUri : DigestErr
  /-- "client specified no 'response' in Authorization header field" -/
  | noResponse : DigestErr
  /-- "client specified no 'opaque' in Authorization header field" -/
  | noOpaque : DigestErr
  /-- "could not parse 'nc' to an int" -/
  | ncNotAnInt : DigestErr
  /-- "an invalid mix between the old RFC 2069 and the new RFC 2617:
  qop, nc, cnonce are only partially specified" -/
  | invalidRfcMix : DigestErr
deriving DecidableEq

deriving instance DecidableEq for Except

/-- The separator `"Authorization: Digest "`. -/
def authSep : Str := strL "Authorization: Digest "

/-- Quote-stripping done on each Digest parameter value (lib.rs line 136):
`value.strip_prefix('"').map(|v| v.strip_suffix('"')).flatten().unwrap_or(value)`. -/
def stripQuotes (v : Str) : Str :=
  match stripPreChar '"' v with
  | some v1 =>
    match stripSufChar '"' v1 with
    | some v2 => v2
    | none => v
  | none => v

/-- One comma-separated fragment into a key/value pair (lib.rs lines 134-136):
trim, split on `=` taking segments 0 and 1 (default `""`), strip quotes. -/
def parseKVpair (kv : Str) : Str × Str :=
  let t := trimStr kv
  let key := (splitChar '=' t).getD 0 []
  let value := (splitChar '=' t).getD 1 []
  (key, stripQuotes value)

/-- The key/value pairs of the Digest Authorization header (lib.rs lines
130-137): the text between the first occurrence of `"Authorization: Digest "`
and the next occurrence (or end), split on `,`, each fragment parsed. -/
def parseKVs (tail : Str) : List (Str × Str) :=
  (splitChar ',' (takeUntil authSep tail)).map parseKVpair

/-- Lookup in the collected `HashMap` (lib.rs line 137): with duplicate keys
the later pair overwrites the earlier one, as `HashMap::collect` does. -/
def hmGet (kvs : List (Str × Str)) (k : Str) : Option Str :=
  match kvs with
  | [] => none
  | (k1, v1) :: rest =>
    match hmGet rest k with
    | some v => some v
    | none => if k1 = k then some v1 else none

/-- Step 4 and 5 of `verify_digest_authorization` (lib.rs lines 164-183),
parameterised by the hash so that independence from hashing can be stated;
the source fixes `hash := md5Bytes`. -/
def digestResponseCheck (hash : List Nat → List Nat) (req username pw realm : Str)
    (gNonce gResponse : Str) (gQop gNc gCnonce : Option Str) :
    Except DigestErr Bool :=
  let ha1 := hash (utf8Encode (username ++ strL ":" ++ realm ++ strL ":" ++ pw))
  let ha2 := hash (utf8Encode (strL "GET:" ++ get_get_path req))
  match gQop, gNc, gCnonce with
  | some q, some n, some cn =>
    .ok (gResponse == digestHex (hash (utf8Encode
      (digestHex ha1 ++ strL ":" ++ gNonce ++ strL ":" ++ n ++ strL ":" ++ cn ++
       strL ":" ++ q ++ strL ":" ++ digestHex ha2))))
  | none, none, none =>
    .ok (gResponse == digestHex (hash (utf8Encode
      (digestHex ha1 ++ strL ":" ++ gNonce ++ strL ":" ++ digestHex ha2))))
  | _, _, _ => .error .invalidRfcMix

/-- Model of `HTTPRequest::verify_digest_authorization` (lib.rs line 105),
parameterised by the hash function (the source fixes `hash := md5Bytes`). -/
def verify_digest_authorization_gen (hash : List Nat → List Nat) (req : Str)
    (username pw realm : Str) (verifier : Str → Str → Bool)
    (last_counter : Option Nat) : Except DigestErr Bool :=
  if containsSub authSep req = false then .ok false else
  match afterFirst authSep req with
  | none => .error .noAuthHeaderSplit
  | some tail =>
    let kvs := parseKVs tail
    match hmGet kvs (strL "username") with
    | none => .error .noUsername
    | some gUsername =>
    match hmGet kvs (strL "realm") with
    | none => .error .noRealm
    | some gRealm =>
    match hmGet kvs (strL "nonce") with
    | none => .error .noNonce
    | some gNonce =>
    match hmGet kvs (strL "uri") with
    | none => .error .noUri
    | some gUri =>
    let gQop := hmGet kvs (strL "qop")
    let gNc := hmGet kvs (strL "nc")
    let gCnonce := hmGet kvs (strL "cnonce")
    match hmGet kvs (strL "response") with
    | none => .error .noResponse
    | some gResponse =>
    match hmGet kvs (strL "opaque") with
    | none => .error .noOpaque
    | some gOpaque =>
    if gUsername ≠ username ∨ gRealm ≠ realm then .ok false else
    if verifier gNonce gOpaque = false then .ok false else
    if gUri ≠ get_get_path req then .ok false else
    match last_counter with
    | some lastN =>
      match gNc with
      | none => .ok false
      | some ncStr =>
        match parse_hex_u128 ncStr with
        | none => .error .ncNotAnInt
        | some ncVal =>
          if ncVal ≤ lastN then .ok false
          else digestResponseCheck hash req username pw realm gNonce gResponse
            gQop gNc gCnonce
    | none =>
      digestResponseCheck hash req username pw realm gNonce gResponse
        gQop gNc gCnonce

/-- The verifier of the source, with MD5 as the hash. -/
def verify_digest_authorization (req : Str) (username pw realm : Str)
    (verifier : Str → Str → Bool) (last_counter : Option Nat) :
    Except DigestErr Bool :=
  verify_digest_authorization_gen md5Bytes req username pw realm verifier
    last_counter

/-!
## `HTTPResponse::write_206_partial_file_to_stream` (`src/lib.rs`, line 342)

The file is modelled as its byte list; `File::open`/`metadata` are abstracted
away, `seek(Start(a))` + `take(n)` + `io::copy` become `drop`/`take` on the
byte list.  The subtraction `range_end - range.0 + 1` is `u64` arithmetic;
the model makes it checked, with `none` for the debug-mode panic (release
mode would wrap).
-/

/-- Checked `u64` subtraction: `none` models the underflow panic. -/
def u64Sub (a b : Nat) : Option Nat := if a < b then none else some (a - b)

/-- Checked `u64` addition: `none` models the overflow panic. -/
def u64Add (a b : Nat) : Option Nat :=
  if a + b < 2 ^ 64 then some (a + b) else none

/-- The `Content-Range` response header written by
`write_206_partial_file_to_stream` (lib.rs lines 357-360). -/
def header206 (fileSize : Nat) (range : Nat × Option Nat) : Str :=
  strL "HTTP/1.1 206 Partial Content\r\nAccept-Ranges: bytes\r\nContent-Range: bytes " ++
  natToStr range.1 ++ strL "-" ++
  (match range.2 with
   | some e => natToStr e
   | none => []) ++
  strL "/" ++ natToStr fileSize ++ strL "\r\n\r\n"

/-- Model of `HTTPResponse::write_206_partial_file_to_stream`: the header
string and body bytes written to the stream, `none` for the arithmetic panic
on `range_end - range.0 + 1`. -/
def write_206_partial_file_to_stream (file : List Nat)
    (range : Nat × Option Nat) : Option (Str × List Nat) :=
  match range.2 with
  | some rangeEnd => do
    let d ← u64Sub rangeEnd range.1
    let cnt ← u64Add d 1
    some (header206 file.length range, (file.drop range.1).take cnt)
  | none =>
    some (header206 file.length range, (file.drop range.1).take (2 ^ 64 - 1))

/-- Adjacent-pair check used to rule out occurrences of `authSep`: no
`'A'` immediately followed by `'u'` anywhere in the string. -/
def noAU : Str → Bool
  | [] => true
  | [_] => true
  | c1 :: c2 :: rest => !(c1 == 'A' && c2 == 'u') && noAU (c2 :: rest)

/-- No suffix of `s` starts with `sep`. -/
def NoOcc (sep s : Str) : Prop := ∀ p q : Str, s = p ++ q → isPre sep q = false

/-- A minimal request carrying a Basic Authorization header with the given
payload, used to state the Basic-auth round trip. -/
def basicReq (payload : Str) : Str :=
  strL "GET / HTTP/1.1\r\nAuthorization: Basic " ++ payload

/-- The RFC 2617 worked-example request (lib.rs lines 108-123), with the
`response` parameter value left open. -/
def exReq (resp : Str) : Str :=
  strL "GET /dir/index.html HTTP/1.1\r\nHost: localhost\r\nAuthorization: Digest username=\"Mufasa\", realm=\"testrealm@host.com\", nonce=\"dcd98b7102dd2f0e8b11d0f600bfb0c093\", uri=\"/dir/index.html\", qop=auth, nc=00000001, cnonce=\"0a4f113b\", response=\"" ++
  resp ++ strL "\", opaque=\"5ccc069c403ebaf9f0171e9517f40e41\"\r\n\r\n"

/-- The correct `response` value of the RFC 2617 worked example. -/
def hexResp : Str := strL "6629fae49393a05397450978507c4ef1"

/-- The parameter text of `exReq` before the `response` value. -/
def exP1 : Str :=
  strL "username=\"Mufasa\", realm=\"testrealm@host.com\", nonce=\"dcd98b7102dd2f0e8b11d0f600bfb0c093\", uri=\"/dir/index.html\", qop=auth, nc=00000001, cnonce=\"0a4f113b\", response=\""

/-- The parameter text of `exReq` after the `response` value. -/
def exP2 : Str := strL "\", opaque=\"5ccc069c403ebaf9f0171e9517f40e41\"\r\n\r\n"

/-- The key/value pairs parsed out of `exReq`, with response value `rv`. -/
def exKVs (rv : Str) : List (Str × Str) :=
  [(strL "username", strL "Mufasa"),
   (strL "realm", strL "testrealm@host.com"),
   (strL "nonce", strL "dcd98b7102dd2f0e8b11d0f600bfb0c093"),
   (strL "uri", strL "/dir/index.html"),
   (strL "qop", strL "auth"),
   (strL "nc", strL "00000001"),
   (strL "cnonce", strL "0a4f113b"),
   (strL "response", rv),
   (strL "opaque", strL "5ccc069c403ebaf9f0171e9517f40e41")]

/-- The key/value pairs parsed out of `exReq` when the `response` value
contains a `,` (splitting the fragment in two, leaving a junk pair). -/
def exKVsJ (t d : Str) : List (Str × Str) :=
  [(strL "username", strL "Mufasa"),
   (strL "realm", strL "testrealm@host.com"),
   (strL "nonce", strL "dcd98b7102dd2f0e8b11d0f600bfb0c093"),
   (strL "uri", strL "/dir/index.html"),
   (strL "qop", strL "auth"),
   (strL "nc", strL "00000001"),
   (strL "cnonce", strL "0a4f113b"),
   (strL "response", '\"' :: t),
   (d ++ ['\"'], []),
   (strL "opaque", strL "5ccc069c403ebaf9f0171e9517f40e41")]

-- ===== THEOREMS =====

theorem splitChar_ne_nil (sep : Char) (s : Str) : splitChar sep s ≠ [] := by
  cases s with
  | nil => simp [splitChar]
  | cons c rest =>
    simp only [splitChar]
    cases h : splitChar sep rest with
    | nil => simp
    | cons hd t =>
      by_cases hc : c = sep <;> simp [hc]

theorem splitChar_no_sep {sep : Char} {p : Str} (h : sep ∉ p) :
    splitChar sep p = [p] := by
  induction p with
  | nil => rfl
  | cons c rest ih =>
    have hc : ¬ (c = sep) := fun e => h (e ▸ List.mem_cons_self c rest)
    have ih' := ih (fun m => h (List.mem_cons_of_mem _ m))
    simp only [splitChar, ih']
    simp [hc]

theorem splitChar_append {sep : Char} {p q : Str} (h : sep ∉ p)
    {hd : Str} {t : List Str} (hq : splitChar sep q = hd :: t) :
    splitChar sep (p ++ q) = (p ++ hd) :: t := by
  induction p with
  | nil => simpa using hq
  | cons c rest ih =>
    have hc : ¬ (c = sep) := fun e => h (e ▸ List.mem_cons_self c rest)
    have ih' := ih (fun m => h (List.mem_cons_of_mem _ m))
    simp only [List.cons_append, splitChar, ih']
    simp [hc, ih']

theorem splitChar_cons_self (sep : Char) (q : Str) :
    splitChar sep (sep :: q) = [] :: splitChar sep q := by
  obtain ⟨hd, t, hq⟩ := List.exists_cons_of_ne_nil (splitChar_ne_nil sep q)
  simp only [splitChar, hq]
  simp

theorem splitChar_sep_append {sep : Char} {p : Str} (h : sep ∉ p) (q : Str) :
    splitChar sep (p ++ sep :: q) = p :: splitChar sep q := by
  obtain ⟨hd, t, hq⟩ := List.exists_cons_of_ne_nil (splitChar_ne_nil sep q)
  rw [splitChar_append h (splitChar_cons_self sep q)]
  simp

theorem split2_ne_nil (a b : Char) (s : Str) : split2 a b s ≠ [] := by
  cases s with
  | nil => simp [split2]
  | cons c rest =>
    cases rest with
    | nil => simp [split2]
    | cons c2 r2 =>
      simp only [split2]
      by_cases hc : c = a ∧ c2 = b
      · simp [hc]
      · cases h : split2 a b (c2 :: r2) with
        | nil => simp [hc]
        | cons hd t => simp [hc]

theorem split2_no_a {a b : Char} {p : Str} (h : a ∉ p) : split2 a b p = [p] := by
  induction p with
  | nil => rfl
  | cons c rest ih =>
    have hc : ¬ (c = a) := fun e => h (e ▸ List.mem_cons_self c rest)
    have ih' := ih (fun m => h (List.mem_cons_of_mem _ m))
    cases rest with
    | nil => rfl
    | cons c2 r2 =>
      simp only [split2, ih']
      simp [hc]

theorem split2_append {a b : Char} {p q : Str} (h : a ∉ p)
    {hd : Str} {t : List Str} (hq : split2 a b q = hd :: t) :
    split2 a b (p ++ q) = (p ++ hd) :: t := by
  induction p with
  | nil => simpa using hq
  | cons c rest ih =>
    have hc : ¬ (c = a) := fun e => h (e ▸ List.mem_cons_self c rest)
    have ih' := ih (fun m => h (List.mem_cons_of_mem _ m))
    rw [List.cons_append]
    cases hrq : rest ++ q with
    | nil =>
      obtain ⟨h1, h2⟩ := List.append_eq_nil.mp hrq
      subst h1; subst h2
      simp only [split2] at ih' ⊢
      cases hq; simp
    | cons c2 r2 =>
      rw [hrq] at ih'
      simp only [split2, ih']
      simp [hc]

theorem split2_sep_append {p : Str} (h : '\r' ∉ p) (q : Str) :
    split2 '\r' '\n' (p ++ '\r' :: '\n' :: q) = p :: split2 '\r' '\n' q := by
  obtain ⟨hd, t, hq⟩ := List.exists_cons_of_ne_nil (split2_ne_nil '\r' '\n' q)
  have step : split2 '\r' '\n' ('\r' :: '\n' :: q) = [] :: split2 '\r' '\n' q := by
    simp [split2]
  rw [split2_append h (step.trans (by rw [hq]))]
  · simp [hq]

theorem isPre_append_self (p t : Str) : isPre p (p ++ t) = true := by
  induction p with
  | nil => rfl
  | cons c rest ih => simp [isPre, ih]

theorem isPre_iff {p s : Str} : isPre p s = true ↔ ∃ t, s = p ++ t := by
  constructor
  · intro h
    induction p generalizing s with
    | nil => exact ⟨s, rfl⟩
    | cons c rest ih =>
      cases s with
      | nil => simp [isPre] at h
      | cons x xs =>
        simp only [isPre, Bool.and_eq_true, beq_iff_eq] at h
        obtain ⟨t, ht⟩ := ih h.2
        exact ⟨t, by simp [h.1, ht]⟩
  · rintro ⟨t, rfl⟩
    exact isPre_append_self p t

theorem stripPreStr_append (p t : Str) : stripPreStr p (p ++ t) = some t := by
  simp [stripPreStr, isPre_append_self, List.drop_left]

theorem afterFirst_sep_append {sep : Str} (h : sep ≠ []) (t : Str) :
    afterFirst sep (sep ++ t) = some t := by
  cases sep with
  | nil => exact absurd rfl h
  | cons s0 srest =>
    have hpre : isPre (s0 :: srest) (s0 :: (srest ++ t)) = true := by
      simpa using isPre_append_self (s0 :: srest) t
    show afterFirst (s0 :: srest) (s0 :: (srest ++ t)) = some t
    simp only [afterFirst, hpre, if_true]
    have : (s0 :: srest).length - 1 = srest.length := by simp
    rw [this, List.drop_left]

theorem afterFirst_skip {s0 : Char} {sep p : Str} (h : ∀ x ∈ p, x ≠ s0)
    (q : Str) : afterFirst (s0 :: sep) (p ++ q) = afterFirst (s0 :: sep) q := by
  induction p with
  | nil => rfl
  | cons c rest ih =>
    have hc : c ≠ s0 := h c (List.mem_cons_self c rest)
    have ih' := ih (fun x m => h x (List.mem_cons_of_mem _ m))
    simp only [List.cons_append, afterFirst, isPre]
    have : (s0 == c) = false := by
      simp [beq_eq_false_iff_ne]
      exact fun e => hc e.symm
    simp [this, ih']

theorem afterFirst_isSome_iff {sep : Str} (hsep : sep ≠ []) (s : Str) :
    (afterFirst sep s).isSome = true ↔ ∃ p q : Str, s = p ++ sep ++ q := by
  induction s with
  | nil =>
    constructor
    · intro h
      simp [afterFirst] at h
    · rintro ⟨p, q, hpq⟩
      exfalso
      have hlen := congrArg List.length hpq
      simp at hlen
      have : sep.length = 0 := by omega
      exact hsep (List.length_eq_zero.mp this)
  | cons c rest ih =>
    by_cases hp : isPre sep (c :: rest) = true
    · obtain ⟨t, ht⟩ := isPre_iff.mp hp
      constructor
      · intro _
        exact ⟨[], t, by simpa using ht⟩
      · intro _
        show (afterFirst sep (c :: rest)).isSome = true
        simp [afterFirst, hp]
    · have hp' : isPre sep (c :: rest) = false := by simpa using hp
      have unf : afterFirst sep (c :: rest) = afterFirst sep rest := by
        simp [afterFirst, hp']
      rw [unf, ih]
      constructor
      · rintro ⟨p, q, hpq⟩
        exact ⟨c :: p, q, by simp [hpq]⟩
      · rintro ⟨p, q, hpq⟩
        cases p with
        | nil =>
          exfalso
          rw [List.nil_append] at hpq
          have hti : isPre sep (c :: rest) = true := isPre_iff.mpr ⟨q, hpq⟩
          rw [hp'] at hti
          cases hti
        | cons x xs =>
          simp only [List.cons_append, List.cons.injEq] at hpq
          exact ⟨xs, q, hpq.2⟩

theorem takeUntil_eq_self {sep s : Str} (h : NoOcc sep s) :
    takeUntil sep s = s := by
  induction s with
  | nil => rfl
  | cons c rest ih =>
    have h0 : isPre sep (c :: rest) = false := h [] (c :: rest) rfl
    have hrest : NoOcc sep rest := by
      intro p q hpq
      exact h (c :: p) q (by simp [hpq])
    simp [takeUntil, h0, ih hrest]

theorem noAU_tail {c : Char} {s : Str} (h : noAU (c :: s) = true) :
    noAU s = true := by
  cases s with
  | nil => rfl
  | cons c2 r2 =>
    simp only [noAU, Bool.and_eq_true] at h
    exact h.2

theorem isPre_authSep_false {c c2 : Char} (r2 : Str)
    (h : (c == 'A' && c2 == 'u') = false) :
    isPre authSep (c :: c2 :: r2) = false := by
  have hsep : authSep = 'A' :: 'u' :: strL "thorization: Digest " := by decide
  rw [hsep]
  simp only [isPre]
  cases hA : ('A' == c) with
  | false => simp [hA]
  | true =>
    cases hu : ('u' == c2) with
    | false => simp [hA, hu]
    | true =>
      exfalso
      have h1 : c = 'A' := (beq_iff_eq.mp hA).symm
      have h2 : c2 = 'u' := (beq_iff_eq.mp hu).symm
      rw [h1, h2] at h
      simp at h

theorem isPre_authSep_false_short (c : Char) :
    isPre authSep [c] = false := by
  have hsep : authSep = 'A' :: 'u' :: strL "thorization: Digest " := by decide
  rw [hsep]
  simp only [isPre]
  simp

theorem noAU_noOcc {s : Str} (h : noAU s = true) : NoOcc authSep s := by
  induction s with
  | nil =>
    intro p q hpq
    have hq : q = [] := by
      cases p with
      | nil => exact hpq.symm
      | cons x xs => exact List.noConfusion hpq
    subst hq
    rfl
  | cons c rest ih =>
    intro p q hpq
    cases p with
    | cons x xs =>
      simp only [List.cons_append, List.cons.injEq] at hpq
      exact ih (noAU_tail h) xs q hpq.2
    | nil =>
      simp only [List.nil_append] at hpq
      subst hpq
      cases rest with
      | nil => exact isPre_authSep_false_short c
      | cons c2 r2 =>
        simp only [noAU, Bool.and_eq_true, Bool.not_eq_eq_eq_not, Bool.not_true] at h
        exact isPre_authSep_false r2 h.1

theorem noAU_cons {x : Char} {m : Str} (hx : x ≠ 'A') (hm : noAU m = true) :
    noAU (x :: m) = true := by
  cases m with
  | nil => rfl
  | cons y r =>
    have hxA : (x == 'A') = false := by
      simp [beq_eq_false_iff_ne]
      exact hx
    simp only [noAU, Bool.and_eq_true]
    constructor
    · simp [hxA]
    · exact hm

theorem noAU_of_all {s : Str} (h : ∀ x ∈ s, x ≠ 'A') : noAU s = true := by
  induction s with
  | nil => rfl
  | cons c rest ih =>
    exact noAU_cons (h c (List.mem_cons_self c rest))
      (ih (fun x m => h x (List.mem_cons_of_mem _ m)))

theorem noAU_append {p q : Str} (hp : noAU p = true) (hq : noAU q = true)
    (hb : ∀ x y, p.getLast? = some x → q.head? = some y →
      (x == 'A' && y == 'u') = false) :
    noAU (p ++ q) = true := by
  induction p with
  | nil => simpa using hq
  | cons c rest ih =>
    cases rest with
    | nil =>
      cases q with
      | nil => simpa using hp
      | cons y q' =>
        simp only [List.cons_append, List.nil_append, noAU, Bool.and_eq_true]
        constructor
        · have := hb c y (by simp) (by simp)
          simp [this]
        · exact hq
    | cons c2 r2 =>
      have hp2 : noAU (c2 :: r2) = true := noAU_tail hp
      have hb2 : ∀ x y, (c2 :: r2).getLast? = some x → q.head? = some y →
          (x == 'A' && y == 'u') = false := by
        intro x y hx hy
        apply hb x y _ hy
        simpa [List.getLast?] using hx
      have ih' := ih hp2 hb2
      simp only [List.cons_append] at ih' ⊢
      simp only [noAU, Bool.and_eq_true] at hp ⊢
      exact ⟨hp.1, ih'⟩

theorem noAU_set {l : Str} (h : ∀ x ∈ l, x ≠ 'A' ∧ x ≠ 'u') (i : Nat) (c : Char) :
    noAU (l.set i c) = true := by
  induction l generalizing i with
  | nil => rfl
  | cons x rest ih =>
    cases i with
    | zero =>
      rw [List.set_cons_zero]
      cases rest with
      | nil => rfl
      | cons y r' =>
        have hy : y ≠ 'u' :=
          (h y (List.mem_cons_of_mem _ (List.mem_cons_self y r'))).2
        have hyu : (y == 'u') = false := by
          simp [beq_eq_false_iff_ne]; exact hy
        simp only [noAU, Bool.and_eq_true]
        refine ⟨by simp [hyu], ?_⟩
        exact noAU_of_all (fun z m =>
          (h z (List.mem_cons_of_mem _ m)).1)
    | succ j =>
      rw [List.set_cons_succ]
      exact noAU_cons (h x (List.mem_cons_self x rest)).1
        (ih (fun z m => h z (List.mem_cons_of_mem _ m)) j)

theorem dropWhile_eq_self_of_head {p : Char → Bool} {s : Str}
    (h : ∀ c, s.head? = some c → p c = false) : s.dropWhile p = s := by
  cases s with
  | nil => rfl
  | cons c rest => simp [List.dropWhile_cons, h c rfl]

theorem trimStr_eq_self {s : Str}
    (hh : ∀ c, s.head? = some c → isRustWs c = false)
    (hl : ∀ c, s.getLast? = some c → isRustWs c = false) : trimStr s = s := by
  unfold trimStr
  rw [dropWhile_eq_self_of_head hh]
  rw [dropWhile_eq_self_of_head (by
    intro c hc
    rw [List.head?_reverse] at hc
    exact hl c hc)]
  exact List.reverse_reverse s

theorem trimStr_cons_space (s : Str) : trimStr (' ' :: s) = trimStr s := by
  unfold trimStr
  rw [List.dropWhile_cons]
  simp only [show isRustWs ' ' = true from rfl, if_true]

theorem stripSufChar_append (q : Char) (x : Str) :
    stripSufChar q (x ++ [q]) = some x := by
  simp [stripSufChar, List.reverse_append]

theorem stripSufChar_none {s : Str}
    (h : ∀ c, s.getLast? = some c → c ≠ '"') : stripSufChar '"' s = none := by
  unfold stripSufChar
  cases hr : s.reverse with
  | nil => rfl
  | cons d rr =>
    have : s.getLast? = some d := by
      rw [← List.head?_reverse, hr]; rfl
    simp [h d this]

/-- C10: `write_206_partial_file_to_stream` performs no validation that
`start ≤ end`: the byte count `end - start + 1` is computed in `u64`
arithmetic and underflows (panics under checked arithmetic, modelled as
`none`) whenever `end < start`; under the precondition `start ≤ end` and
`end < 2 ^ 64 - 1` the computation never under- or overflows. -/
theorem c10_write206_range_arith :
    (∀ (file : List Nat) (s e : Nat), e < s →
      write_206_partial_file_to_stream file (s, some e) = none) ∧
    (∀ (file : List Nat) (s e : Nat), s ≤ e → e < 2 ^ 64 - 1 →
      (write_206_partial_file_to_stream file (s, some e)).isSome = true) := by
  constructor
  · intro file s e hlt
    simp [write_206_partial_file_to_stream, u64Sub, hlt]
  · intro file s e hle hlt
    have h1 : ¬ (e < s) := by omega
    have e1 : u64Sub e s = some (e - s) := by simp [u64Sub, h1]
    have e2 : u64Add (e - s) 1 = some (e - s + 1) := by
      unfold u64Add
      rw [if_pos (by omega : e - s + 1 < 2 ^ 64)]
    simp [write_206_partial_file_to_stream, e1, e2]

/-- Witness for C10 at concrete inputs: `(start, end) = (3, 2)` panics,
`(1, 2)` succeeds. -/
theorem c10_write206_range_arith_witness :
    write_206_partial_file_to_stream [7, 8, 9, 10] (3, some 2) = none ∧
    (write_206_partial_file_to_stream [7, 8, 9, 10] (1, some 2)).isSome = true :=
  ⟨c10_write206_range_arith.1 [7, 8, 9, 10] 3 2 (by decide),
   c10_write206_range_arith.2 [7, 8, 9, 10] 1 2 (by decide) (by norm_num)⟩

/-- C5: for a file of size `fileSize` (a `u64`) and a range `(a, some b)` with
`a ≤ b < fileSize`, the 206 response's body is exactly the file's bytes at
offsets `a` through `b` inclusive (`b - a + 1` bytes); for `(a, none)` with
`a < fileSize` it is the `fileSize - a` remaining bytes; in both cases the
`Content-Range` header ends with `/<fileSize>` built from the full file
size. -/
theorem c5_write206_body :
    (∀ (file : List Nat) (a b : Nat), file.length < 2 ^ 64 → a ≤ b →
      b < file.length →
      write_206_partial_file_to_stream file (a, some b) =
        some (strL "HTTP/1.1 206 Partial Content\r\nAccept-Ranges: bytes\r\nContent-Range: bytes " ++
              natToStr a ++ strL "-" ++ natToStr b ++ strL "/" ++
              natToStr file.length ++ strL "\r\n\r\n",
              (file.take (b + 1)).drop a) ∧
      ((file.take (b + 1)).drop a).length = b - a + 1) ∧
    (∀ (file : List Nat) (a : Nat), file.length < 2 ^ 64 → a < file.length →
      write_206_partial_file_to_stream file (a, none) =
        some (strL "HTTP/1.1 206 Partial Content\r\nAccept-Ranges: bytes\r\nContent-Range: bytes " ++
              natToStr a ++ strL "-" ++ strL "/" ++
              natToStr file.length ++ strL "\r\n\r\n",
              file.drop a) ∧
      (file.drop a).length = file.length - a) := by
  constructor
  · intro file a b hlen hab hbl
    have h1 : ¬ (b < a) := by omega
    have h2 : b - a + 1 < 2 ^ 64 := by omega
    have hbody : (file.drop a).take (b - a + 1) = (file.take (b + 1)).drop a := by
      rw [List.drop_take]
      congr 1
      omega
    constructor
    · have e1 : u64Sub b a = some (b - a) := by simp [u64Sub, h1]
      have e2 : u64Add (b - a) 1 = some (b - a + 1) := by
        unfold u64Add
        rw [if_pos h2]
      simp only [write_206_partial_file_to_stream, e1, e2, header206,
        Option.bind_eq_bind, Option.some_bind, hbody]
    · rw [← hbody]
      rw [List.length_take, List.length_drop]
      omega
  · intro file a hlen hal
    have hbody : (file.drop a).take (2 ^ 64 - 1) = file.drop a := by
      apply List.take_of_length_le
      rw [List.length_drop]
      omega
    constructor
    · simp only [write_206_partial_file_to_stream, header206]
      rw [hbody]
      simp [List.append_assoc]
    · rw [List.length_drop]

/-- Witness for C5: the file `[10, 20, 30, 40]` with ranges `(1, some 2)`
and `(1, none)`. -/
theorem c5_write206_body_witness :
    (write_206_partial_file_to_stream [10, 20, 30, 40] (1, some 2) =
      some (strL "HTTP/1.1 206 Partial Content\r\nAccept-Ranges: bytes\r\nContent-Range: bytes " ++
            natToStr 1 ++ strL "-" ++ natToStr 2 ++ strL "/" ++
            natToStr ([10, 20, 30, 40] : List Nat).length ++ strL "\r\n\r\n",
            (([10, 20, 30, 40] : List Nat).take 3).drop 1) ∧
     ((([10, 20, 30, 40] : List Nat).take 3).drop 1).length = 2) ∧
    (write_206_partial_file_to_stream [10, 20, 30, 40] (1, none) =
      some (strL "HTTP/1.1 206 Partial Content\r\nAccept-Ranges: bytes\r\nContent-Range: bytes " ++
            natToStr 1 ++ strL "-" ++ strL "/" ++
            natToStr ([10, 20, 30, 40] : List Nat).length ++ strL "\r\n\r\n",
            ([10, 20, 30, 40] : List Nat).drop 1) ∧
     (([10, 20, 30, 40] : List Nat).drop 1).length = 3) :=
  ⟨c5_write206_body.1 [10, 20, 30, 40] 1 2 (by norm_num) (by decide) (by decide),
   c5_write206_body.2 [10, 20, 30, 40] 1 (by norm_num) (by decide)⟩

/-- Counterexample to C8 as stated: in the request `"GET\r\n/a b"` the first
line `"GET"` has no second whitespace-delimited token, so the claim requires
the default path `"/"`; but `get_get_path` splits the whole request string on
`' '` and returns `"b"` from the second line. -/
theorem c8_get_get_path_counterexample :
    get_get_path (strL "GET\r\n/a b") = strL "b" ∧
    (splitCRLF (strL "GET\r\n/a b"))[0]? = some (strL "GET") ∧
    (splitChar ' ' (strL "GET"))[1]? = none ∧
    strL "b" ≠ strL "/" := by decide

/-- C8 (amended): `get_get_path` returns the second `' '`-separated token of
the whole request string (spaces on any line count, tabs do not split), and
`"/"` when the whole request has no space at all. -/
theorem c8_get_get_path_amended :
    (∀ t0 : Str, ' ' ∉ t0 → get_get_path t0 = strL "/") ∧
    (∀ t0 t1 : Str, ' ' ∉ t0 → ' ' ∉ t1 →
      get_get_path (t0 ++ ' ' :: t1) = t1) ∧
    (∀ t0 t1 rest : Str, ' ' ∉ t0 → ' ' ∉ t1 →
      get_get_path (t0 ++ ' ' :: (t1 ++ ' ' :: rest)) = t1) := by
  refine ⟨?_, ?_, ?_⟩
  · intro t0 h0
    simp [get_get_path, splitChar_no_sep h0]
  · intro t0 t1 h0 h1
    rw [get_get_path, splitChar_sep_append h0, splitChar_no_sep h1]
    simp
  · intro t0 t1 rest h0 h1
    rw [get_get_path, splitChar_sep_append h0, splitChar_sep_append h1]
    simp

/-- Witness for C8 (amended) on `"GET /x HTTP/1.1"`. -/
theorem c8_get_get_path_amended_witness :
    get_get_path (strL "GET" ++ ' ' :: (strL "/x" ++ ' ' :: strL "HTTP/1.1")) =
      strL "/x" :=
  c8_get_get_path_amended.2.2 (strL "GET") (strL "/x") (strL "HTTP/1.1")
    (by decide) (by decide)

/-- Counterexample to C9 as stated: `"xRange: bytes=0-"` contains the
substring `"Range: bytes="` but no line of the request begins with it, yet
`contains_range_header` returns `true`. -/
theorem c9_contains_range_counterexample :
    contains_range_header (strL "xRange: bytes=0-") = true ∧
    ∀ l ∈ splitCRLF (strL "xRange: bytes=0-"),
      isPre (strL "Range: bytes=") l = false := by decide

/-- C9 (amended): `contains_range_header` is true iff the substring
`"Range: bytes="` occurs anywhere in the request, not necessarily at the
start of a line. -/
theorem c9_contains_range_amended (req : Str) :
    contains_range_header req = true ↔
      ∃ p q : Str, req = p ++ strL "Range: bytes=" ++ q := by
  unfold contains_range_header containsSub
  exact afterFirst_isSome_iff (by decide) req

/-- Counterexample to C7 as stated: for the Range value `5-x` the right side
`x` is non-empty, so the claim says the end offset is parsed from it
(`None` only for an empty right side); but `parse` fails on `x` and the code
returns `(5, None)`. -/
theorem c7_get_requested_range_counterexample :
    get_requested_range (strL "GET /f HTTP/1.1\r\nRange: bytes=5-x") =
      some (5, none) ∧
    strL "x" ≠ [] := by decide

/-- C7 (amended): on the first line with prefix `"Range: bytes="`, the value
is split on `-`; the left token must parse as a `u64` (else panic, modelled
`none`) and a `-` must exist (else panic); the end offset is `some b` when
the right side parses as a `u64` and `None` when it is empty **or fails to
parse** (non-numeric or out of `u64` range). -/
theorem c7_get_requested_range_amended :
    (∀ (req da db : Str) (a : Nat),
      (splitCRLF req).find? (fun s => isPre (strL "Range: bytes=") s) =
        some (strL "Range: bytes=" ++ (da ++ '-' :: db)) →
      '-' ∉ da → '-' ∉ db → parse_u64 da = some a →
      get_requested_range req = some (a, parse_u64 db)) ∧
    (∀ req v : Str,
      (splitCRLF req).find? (fun s => isPre (strL "Range: bytes=") s) =
        some (strL "Range: bytes=" ++ v) →
      '-' ∉ v → get_requested_range req = none) ∧
    (∀ req da db : Str,
      (splitCRLF req).find? (fun s => isPre (strL "Range: bytes=") s) =
        some (strL "Range: bytes=" ++ (da ++ '-' :: db)) →
      '-' ∉ da → parse_u64 da = none →
      get_requested_range req = none) ∧
    parse_u64 [] = none := by
  refine ⟨?_, ?_, ?_, rfl⟩
  · intro req da db a hfind hda hdb hparse
    simp only [get_requested_range, hfind, Option.bind_eq_bind, Option.some_bind,
      stripPreStr_append, splitChar_sep_append hda, splitChar_no_sep hdb]
    simp [hparse]
  · intro req v hfind hv
    simp only [get_requested_range, hfind, Option.bind_eq_bind, Option.some_bind,
      stripPreStr_append, splitChar_no_sep hv]
    simp
  · intro req da db hfind hda hparse
    simp only [get_requested_range, hfind, Option.bind_eq_bind, Option.some_bind,
      stripPreStr_append, splitChar_sep_append hda]
    simp [hparse]

/-- Witness for C7 (amended): `"Range: bytes=5-17"` yields `(5, some 17)`,
`"Range: bytes=5-x"` yields `(5, none)` through the same theorem. -/
theorem c7_get_requested_range_amended_witness :
    get_requested_range (strL "GET /f HTTP/1.1\r\nRange: bytes=5-17") =
      some (5, parse_u64 (strL "17")) ∧
    get_requested_range (strL "GET /f HTTP/1.1\r\nRange: bytes=5-x") =
      some (5, parse_u64 (strL "x")) :=
  ⟨c7_get_requested_range_amended.1 (strL "GET /f HTTP/1.1\r\nRange: bytes=5-17")
      (strL "5") (strL "17") 5 (by decide) (by decide) (by decide) (by decide),
   c7_get_requested_range_amended.1 (strL "GET /f HTTP/1.1\r\nRange: bytes=5-x")
      (strL "5") (strL "x") 5 (by decide) (by decide) (by decide) (by decide)⟩


theorem charToNat_ofNat {n : Nat} (h : n < 0xd800) : (Char.ofNat n).toNat = n := by
  have hv : n.isValidChar := Or.inl h
  simp only [Char.ofNat, hv, dif_pos]
  rfl

theorem charOfNat_toNat (c : Char) : Char.ofNat c.toNat = c := by
  have hv : c.toNat.isValidChar := c.valid
  simp only [Char.ofNat, hv, dif_pos]
  simp only [Char.ofNatAux, Char.toNat]
  apply Char.ext
  apply UInt32.toNat.inj
  simp [UInt32.toNat]

theorem utf8Step_encodeChar (n : Nat) (hval : n.isValidChar) (rest : List Nat) :
    utf8Step (utf8EncodeChar n ++ rest) = some (n, rest) := by
  have hv : n < 0xd800 ∨ (0xe000 ≤ n ∧ n < 0x110000) := hval
  by_cases h1 : n < 0x80
  · rw [utf8EncodeChar, if_pos h1, List.cons_append, List.nil_append]
    rw [utf8Step]
    rw [if_pos h1]
  · by_cases h2 : n < 0x800
    · rw [utf8EncodeChar, if_neg h1, if_pos h2, List.cons_append,
        List.cons_append, List.nil_append]
      rw [utf8Step]
      rw [if_neg (show ¬ (0xc0 + n / 0x40 < 0x80) by omega),
        if_neg (show ¬ (0xc0 + n / 0x40 < 0xc2) by omega),
        if_pos (show 0xc0 + n / 0x40 < 0xe0 by omega)]
      rw [utf8Two]
      rw [if_pos (show 0x80 ≤ 0x80 + n % 0x40 ∧ 0x80 + n % 0x40 < 0xc0 by
        constructor <;> omega)]
      congr 2
      omega
    · by_cases h3 : n < 0x10000
      · rw [utf8EncodeChar, if_neg h1, if_neg h2, if_pos h3, List.cons_append,
          List.cons_append, List.cons_append, List.nil_append]
        rw [utf8Step]
        rw [if_neg (show ¬ (0xe0 + n / 0x1000 < 0x80) by omega),
          if_neg (show ¬ (0xe0 + n / 0x1000 < 0xc2) by omega),
          if_neg (show ¬ (0xe0 + n / 0x1000 < 0xe0) by omega),
          if_pos (show 0xe0 + n / 0x1000 < 0xf0 by omega)]
        rw [utf8Three]
        rw [if_pos (show
          (if 0xe0 + n / 0x1000 = 0xe0 then 0xa0 else 0x80) ≤
              0x80 + n / 0x40 % 0x40 ∧
            0x80 + n / 0x40 % 0x40 <
              (if 0xe0 + n / 0x1000 = 0xed then 0xa0 else 0xc0) ∧
            0x80 ≤ 0x80 + n % 0x40 ∧ 0x80 + n % 0x40 < 0xc0 by
          refine ⟨?_, ?_, ?_, ?_⟩
          · split <;> omega
          · split <;> omega
          · omega
          · omega)]
        congr 2
        omega
      · rw [utf8EncodeChar, if_neg h1, if_neg h2, if_neg h3, List.cons_append,
          List.cons_append, List.cons_append, List.cons_append,
          List.nil_append]
        rw [utf8Step]
        rw [if_neg (show ¬ (0xf0 + n / 0x40000 < 0x80) by omega),
          if_neg (show ¬ (0xf0 + n / 0x40000 < 0xc2) by omega),
          if_neg (show ¬ (0xf0 + n / 0x40000 < 0xe0) by omega),
          if_neg (show ¬ (0xf0 + n / 0x40000 < 0xf0) by omega),
          if_pos (show 0xf0 + n / 0x40000 < 0xf5 by omega)]
        rw [utf8Four]
        rw [if_pos (show
          (if 0xf0 + n / 0x40000 = 0xf0 then 0x90 else 0x80) ≤
              0x80 + n / 0x1000 % 0x40 ∧
            0x80 + n / 0x1000 % 0x40 <
              (if 0xf0 + n / 0x40000 = 0xf4 then 0x90 else 0xc0) ∧
            0x80 ≤ 0x80 + n / 0x40 % 0x40 ∧ 0x80 + n / 0x40 % 0x40 < 0xc0 ∧
            0x80 ≤ 0x80 + n % 0x40 ∧ 0x80 + n % 0x40 < 0xc0 by
          refine ⟨?_, ?_, ?_, ?_, ?_, ?_⟩
          · split <;> omega
          · split <;> omega
          · omega
          · omega
          · omega
          · omega)]
        congr 2
        omega

theorem utf8EncodeChar_ne_nil (n : Nat) : utf8EncodeChar n ≠ [] := by
  unfold utf8EncodeChar
  split
  · simp
  · split
    · simp
    · split <;> simp

theorem utf8DecodeLoop_encode (s : Str) :
    ∀ fuel, (utf8Encode s).length ≤ fuel →
      utf8DecodeLoop fuel (utf8Encode s) = some (s.map Char.toNat) := by
  induction s with
  | nil =>
    intro fuel _
    show utf8DecodeLoop fuel [] = some []
    cases fuel <;> rfl
  | cons c s' ih =>
    intro fuel hfuel
    have henc : utf8Encode (c :: s') =
        utf8EncodeChar c.toNat ++ utf8Encode s' := by
      show (c :: s').flatMap _ = _
      rw [List.flatMap_cons]
      rfl
    obtain ⟨e0, etail, he⟩ :=
      List.exists_cons_of_ne_nil (utf8EncodeChar_ne_nil c.toNat)
    have hlen : (utf8Encode s').length + 1 ≤ fuel := by
      rw [henc, List.length_append, he] at hfuel
      simp at hfuel
      omega
    cases fuel with
    | zero => omega
    | succ f =>
      rw [henc, he, List.cons_append]
      rw [utf8DecodeLoop]
      rw [← List.cons_append, ← he, utf8Step_encodeChar c.toNat c.valid]
      rw [Option.some_bind]
      rw [ih f (by omega)]
      rfl

theorem utf8DecodeList_encode (s : Str) :
    utf8DecodeList (utf8Encode s) = some (s.map Char.toNat) :=
  utf8DecodeLoop_encode s (utf8Encode s).length (Nat.le_refl _)

theorem rustStringFromUtf8_encode (s : Str) :
    rustStringFromUtf8 (utf8Encode s) = some s := by
  rw [rustStringFromUtf8, utf8DecodeList_encode]
  show some (List.map Char.ofNat (List.map Char.toNat s)) = some s
  rw [List.map_map]
  congr 1
  have hcomp : (Char.ofNat ∘ Char.toNat) = id := by
    funext c
    exact charOfNat_toNat c
  rw [hcomp, List.map_id]

theorem utf8EncodeChar_lt256 {n : Nat} (hval : n.isValidChar) :
    ∀ b ∈ utf8EncodeChar n, b < 256 := by
  have hv : n < 0xd800 ∨ (0xe000 ≤ n ∧ n < 0x110000) := hval
  intro b hb
  unfold utf8EncodeChar at hb
  by_cases h1 : n < 0x80
  · rw [if_pos h1] at hb
    simp at hb
    omega
  · by_cases h2 : n < 0x800
    · rw [if_neg h1, if_pos h2] at hb
      simp at hb
      rcases hb with h | h <;> omega
    · by_cases h3 : n < 0x10000
      · rw [if_neg h1, if_neg h2, if_pos h3] at hb
        simp at hb
        rcases hb with h | h | h <;> omega
      · rw [if_neg h1, if_neg h2, if_neg h3] at hb
        simp at hb
        rcases hb with h | h | h | h <;> omega

theorem utf8Encode_lt256 (s : Str) : ∀ b ∈ utf8Encode s, b < 256 := by
  intro b hb
  rw [utf8Encode, List.mem_flatMap] at hb
  obtain ⟨c, _, hc⟩ := hb
  exact utf8EncodeChar_lt256 c.valid b hc

theorem b64CharCode_lt (n : Nat) : b64CharCode n < 0xd800 := by
  unfold b64CharCode
  repeat' split
  all_goals omega

theorem b64CharCode_ne61 (n : Nat) : b64CharCode n ≠ 61 := by
  unfold b64CharCode
  repeat' split
  all_goals omega

theorem b64CharCode_ne13 (n : Nat) : b64CharCode n ≠ 13 := by
  unfold b64CharCode
  repeat' split
  all_goals omega

theorem b64ValCode_charCode : ∀ n, n < 64 → b64ValCode (b64CharCode n) = some n := by
  decide

theorem b64Val_b64Char {n : Nat} (h : n < 64) : b64Val (b64Char n) = some n := by
  rw [b64Val, b64Char, charToNat_ofNat (b64CharCode_lt n)]
  exact b64ValCode_charCode n h

theorem b64Char_ne_pad (n : Nat) : b64Char n ≠ '=' := by
  intro e
  have h := congrArg Char.toNat e
  rw [b64Char, charToNat_ofNat (b64CharCode_lt n)] at h
  exact b64CharCode_ne61 n (h.trans rfl)

theorem b64Char_ne_cr (n : Nat) : b64Char n ≠ '\r' := by
  intro e
  have h := congrArg Char.toNat e
  rw [b64Char, charToNat_ofNat (b64CharCode_lt n)] at h
  exact b64CharCode_ne13 n (h.trans rfl)

theorem base64EncodeList_no_cr (l : List Nat) :
    ∀ c ∈ base64EncodeList l, c ≠ '\r' := by
  induction l using base64EncodeList.induct with
  | case1 => intro c hc; cases hc
  | case2 a =>
    intro c hc
    simp only [base64EncodeList, List.mem_cons, List.mem_singleton] at hc
    rcases hc with rfl | rfl | rfl | h
    · exact b64Char_ne_cr _
    · exact b64Char_ne_cr _
    · decide
    · simp at h
      exact h ▸ (by decide : ('=' : Char) ≠ '\r')
  | case3 a b =>
    intro c hc
    simp only [base64EncodeList, List.mem_cons, List.mem_singleton] at hc
    rcases hc with rfl | rfl | rfl | h
    · exact b64Char_ne_cr _
    · exact b64Char_ne_cr _
    · exact b64Char_ne_cr _
    · simp at h
      exact h ▸ (by decide : ('=' : Char) ≠ '\r')
  | case4 a b cc rest ih =>
    intro c hc
    simp only [base64EncodeList, List.mem_cons] at hc
    rcases hc with rfl | rfl | rfl | rfl | h
    · exact b64Char_ne_cr _
    · exact b64Char_ne_cr _
    · exact b64Char_ne_cr _
    · exact b64Char_ne_cr _
    · exact ih c h

theorem base64_decode_encode {l : List Nat} (h : ∀ b ∈ l, b < 256) :
    base64Decode (base64EncodeList l) = some l := by
  induction l using base64EncodeList.induct with
  | case1 => rfl
  | case2 a =>
    have ha : a < 256 := h a (by simp)
    rw [base64EncodeList, base64Decode]
    rw [b64Val_b64Char (by omega), b64Val_b64Char (by omega)]
    simp only [Option.bind_eq_bind, Option.some_bind]
    rw [if_pos trivial,
      if_pos (show True ∧ True ∧ a % 4 * 16 % 16 = 0 from ⟨trivial, trivial, by omega⟩)]
    simp only [Option.some.injEq, List.cons.injEq, and_true]
    omega
  | case3 a b =>
    have ha : a < 256 := h a (by simp)
    have hb : b < 256 := h b (by simp)
    rw [base64EncodeList, base64Decode]
    rw [b64Val_b64Char (by omega), b64Val_b64Char (by omega)]
    simp only [Option.bind_eq_bind, Option.some_bind]
    rw [if_neg (b64Char_ne_pad _)]
    rw [b64Val_b64Char (by omega)]
    simp only [Option.some_bind]
    rw [if_pos trivial,
      if_pos (show True ∧ b % 16 * 4 % 4 = 0 from ⟨trivial, by omega⟩)]
    simp only [Option.some.injEq, List.cons.injEq, and_true]
    constructor <;> omega
  | case4 a b cc rest ih =>
    have ha : a < 256 := h a (by simp)
    have hb : b < 256 := h b (by simp)
    have hc : cc < 256 := h cc (by simp)
    have ih' := ih (fun x hx => h x (by simp [hx]))
    rw [base64EncodeList, base64Decode]
    rw [b64Val_b64Char (by omega), b64Val_b64Char (by omega)]
    simp only [Option.bind_eq_bind, Option.some_bind]
    rw [if_neg (b64Char_ne_pad _)]
    rw [b64Val_b64Char (by omega)]
    simp only [Option.some_bind]
    rw [if_neg (b64Char_ne_pad _)]
    rw [b64Val_b64Char (by omega)]
    simp only [Option.some_bind]
    rw [ih']
    simp only [Option.some_bind]
    simp only [Option.some.injEq, List.cons.injEq, eq_self_iff_true, and_true]
    exact ⟨by omega, by omega, by omega⟩

theorem basicReq_lines {payload : Str} (h : '\r' ∉ payload) :
    splitCRLF (basicReq payload) =
      [strL "GET / HTTP/1.1", strL "Authorization: Basic " ++ payload] := by
  have hsplit : basicReq payload =
      strL "GET / HTTP/1.1" ++ '\r' :: '\n' ::
        (strL "Authorization: Basic " ++ payload) := by
    show strL "GET / HTTP/1.1\r\nAuthorization: Basic " ++ payload = _
    rw [(by decide : strL "GET / HTTP/1.1\r\nAuthorization: Basic " =
      strL "GET / HTTP/1.1" ++ '\r' :: '\n' :: strL "Authorization: Basic ")]
    simp [List.append_assoc]
  rw [hsplit, splitCRLF, split2_sep_append (by decide)]
  rw [show split2 '\r' '\n' (strL "Authorization: Basic " ++ payload) =
      [strL "Authorization: Basic " ++ payload] from split2_no_a (by
    intro m
    rcases List.mem_append.mp m with hm | hm
    · revert hm; decide
    · exact h hm)]

/-- Counterexample to C6 as stated: the claim's round trip for every password
would require `Base64("a:b:c")` (payload `YTpiOmM=`) to decode to
`("a", "b:c")`; the code splits on every `:` and takes the first two
segments, yielding `("a", "b")`. -/
theorem c6_get_authorization_counterexample :
    get_authorization (strL "GET / HTTP/1.1\r\nAuthorization: Basic YTpiOmM=") =
      some (strL "a", strL "b") ∧
    some (strL "a", strL "b") ≠ some (strL "a", strL "b:c") := by decide

/-- C6 (amended): `get_authorization` decodes the Base64 payload following
`Authorization: Basic ` and returns the first two `:`-separated segments of
the decoded text, so the round trip `Base64(u ++ ":" ++ p) ↦ (u, p)` holds
whenever `u` **and `p`** are colon-free (a password containing `:` is
truncated at its first colon); absence of the header, invalid Base64,
invalid UTF-8, and a decoded payload with no `:` each yield `none`,
indistinguishably. -/
theorem c6_get_authorization_amended :
    (∀ u p : Str, ':' ∉ u → ':' ∉ p →
      get_authorization
        (basicReq (base64EncodeList (utf8Encode (u ++ ':' :: p)))) =
        some (u, p)) ∧
    (∀ req : Str,
      (∀ l ∈ splitCRLF req, isPre (strL "Authorization: Basic ") l = false) →
      get_authorization req = none) ∧
    (∀ req line payload : Str,
      (splitCRLF req).find? (fun s => isPre (strL "Authorization: Basic ") s) =
        some line →
      stripPreStr (strL "Authorization: Basic ") line = some payload →
      base64Decode payload = none →
      get_authorization req = none) ∧
    (∀ (req line payload : Str) (bytes : List Nat),
      (splitCRLF req).find? (fun s => isPre (strL "Authorization: Basic ") s) =
        some line →
      stripPreStr (strL "Authorization: Basic ") line = some payload →
      base64Decode payload = some bytes →
      rustStringFromUtf8 bytes = none →
      get_authorization req = none) ∧
    (∀ (req line payload : Str) (bytes : List Nat) (s : Str),
      (splitCRLF req).find? (fun s => isPre (strL "Authorization: Basic ") s) =
        some line →
      stripPreStr (strL "Authorization: Basic ") line = some payload →
      base64Decode payload = some bytes →
      rustStringFromUtf8 bytes = some s →
      ':' ∉ s →
      get_authorization req = none) := by
  refine ⟨?_, ?_, ?_, ?_, ?_⟩
  · intro u p hu hp
    have hnc : '\r' ∉ base64EncodeList (utf8Encode (u ++ ':' :: p)) :=
      fun m => base64EncodeList_no_cr _ '\r' m rfl
    have hfind : (splitCRLF (basicReq (base64EncodeList (utf8Encode (u ++ ':' :: p))))).find?
        (fun s => isPre (strL "Authorization: Basic ") s) =
        some (strL "Authorization: Basic " ++
          base64EncodeList (utf8Encode (u ++ ':' :: p))) := by
      rw [basicReq_lines hnc]
      rw [List.find?]
      rw [show isPre (strL "Authorization: Basic ") (strL "GET / HTTP/1.1") =
        false from by decide]
      rw [List.find?]
      rw [isPre_append_self]
    rw [get_authorization, hfind]
    simp only [Option.bind_eq_bind, Option.some_bind]
    rw [stripPreStr_append]
    simp only [Option.some_bind]
    rw [base64_decode_encode (utf8Encode_lt256 _)]
    simp only [Option.some_bind]
    rw [rustStringFromUtf8_encode]
    simp only [Option.some_bind]
    rw [splitChar_sep_append hu, splitChar_no_sep hp]
    rfl
  · intro req hall
    have hfind : (splitCRLF req).find?
        (fun s => isPre (strL "Authorization: Basic ") s) = none := by
      rw [List.find?_eq_none]
      intro l hl
      simp [hall l hl]
    rw [get_authorization, hfind]
    rfl
  · intro req line payload hfind hstrip hdec
    rw [get_authorization, hfind]
    simp only [Option.bind_eq_bind, Option.some_bind]
    rw [hstrip]
    simp only [Option.some_bind]
    rw [hdec]
    rfl
  · intro req line payload bytes hfind hstrip hdec hutf
    rw [get_authorization, hfind]
    simp only [Option.bind_eq_bind, Option.some_bind]
    rw [hstrip]
    simp only [Option.some_bind]
    rw [hdec]
    simp only [Option.some_bind]
    rw [hutf]
    rfl
  · intro req line payload bytes s hfind hstrip hdec hutf hcolon
    rw [get_authorization, hfind]
    simp only [Option.bind_eq_bind, Option.some_bind]
    rw [hstrip]
    simp only [Option.some_bind]
    rw [hdec]
    simp only [Option.some_bind]
    rw [hutf]
    simp only [Option.some_bind]
    rw [splitChar_no_sep hcolon]
    rfl

/-- Witness for C6 (amended): the round trip on `("user", "pass")` and the
missing-header case on a plain request. -/
theorem c6_get_authorization_amended_witness :
    get_authorization
      (basicReq (base64EncodeList (utf8Encode (strL "user" ++ ':' :: strL "pass")))) =
      some (strL "user", strL "pass") ∧
    get_authorization (strL "GET / HTTP/1.1\r\nHost: x") = none :=
  ⟨c6_get_authorization_amended.1 (strL "user") (strL "pass") (by decide)
     (by decide),
   c6_get_authorization_amended.2.1 (strL "GET / HTTP/1.1\r\nHost: x")
     (by decide)⟩

/-- Counterexample to C4 as stated: a request whose Digest parameters carry
`username="wrong"` (different from the expected `Mufasa`) but no `opaque`
key; the code returns `Err` for the missing required key before reaching the
username check, not `Ok(false)`. -/
theorem c4_identity_mismatch_counterexample :
    verify_digest_authorization
      (strL "GET / HTTP/1.1\r\nAuthorization: Digest username=\"wrong\", realm=\"r\", nonce=\"n1\", uri=\"/\", response=\"abc\"")
      (strL "Mufasa") (strL "pw") (strL "r") (fun _ _ => true) none =
      .error .noOpaque ∧
    (afterFirst authSep
      (strL "GET / HTTP/1.1\r\nAuthorization: Digest username=\"wrong\", realm=\"r\", nonce=\"n1\", uri=\"/\", response=\"abc\"")).map
      (fun tl => hmGet (parseKVs tl) (strL "username")) =
      some (some (strL "wrong")) ∧
    strL "wrong" ≠ strL "Mufasa" := by decide

/-- C4 (amended): when all six required keys are present and the parsed
`username` or `realm` differs from the expected one,
`verify_digest_authorization` returns `Ok(false)` for **every** hash
function and **every** nonce/opaque verifier — i.e. before any hashing
occurs and without the verifier being consulted. -/
theorem c4_identity_mismatch_amended
    (hash : List Nat → List Nat) (req u pw r : Str) (v : Str → Str → Bool)
    (lc : Option Nat) (tl gU gR gN gUri gResp gOp : Str)
    (htl : afterFirst authSep req = some tl)
    (hU : hmGet (parseKVs tl) (strL "username") = some gU)
    (hR : hmGet (parseKVs tl) (strL "realm") = some gR)
    (hN : hmGet (parseKVs tl) (strL "nonce") = some gN)
    (hUri : hmGet (parseKVs tl) (strL "uri") = some gUri)
    (hResp : hmGet (parseKVs tl) (strL "response") = some gResp)
    (hOp : hmGet (parseKVs tl) (strL "opaque") = some gOp)
    (hne : gU ≠ u ∨ gR ≠ r) :
    verify_digest_authorization_gen hash req u pw r v lc = .ok false := by
  have hc : containsSub authSep req = true := by rw [containsSub, htl]; rfl
  simp only [verify_digest_authorization_gen, hc, htl, hU, hR, hN, hUri, hResp,
    hOp]
  rw [if_neg (by simp)]
  rw [if_pos hne]

/-- Witness for C4 (amended): a complete Digest header with the wrong
username is rejected with `Ok(false)` whatever the hash (here: identity)
and whatever the verifier (here: constantly false, showing its result is
irrelevant). -/
theorem c4_identity_mismatch_amended_witness :
    verify_digest_authorization_gen (fun bs => bs)
      (strL "GET / HTTP/1.1\r\nAuthorization: Digest username=\"wrong\", realm=\"r\", nonce=\"n1\", uri=\"/\", qop=auth, response=\"abc\", opaque=\"op\"")
      (strL "Mufasa") (strL "pw") (strL "r") (fun _ _ => false) none =
      .ok false :=
  c4_identity_mismatch_amended (fun bs => bs)
    (strL "GET / HTTP/1.1\r\nAuthorization: Digest username=\"wrong\", realm=\"r\", nonce=\"n1\", uri=\"/\", qop=auth, response=\"abc\", opaque=\"op\"")
    (strL "Mufasa") (strL "pw") (strL "r") (fun _ _ => false) none
    (strL "username=\"wrong\", realm=\"r\", nonce=\"n1\", uri=\"/\", qop=auth, response=\"abc\", opaque=\"op\"")
    (strL "wrong") (strL "r") (strL "n1") (strL "/") (strL "abc") (strL "op")
    (by decide) (by decide) (by decide) (by decide) (by decide) (by decide)
    (by decide) (Or.inl (by decide))

/-- Counterexample to C2 as stated: with `last_counter = Some 5`, a request
whose parsed Digest parameters contain no `nc` key but also no `opaque` key
returns `Err` (missing required key), not `Ok(false)`. -/
theorem c2_replay_counterexample :
    verify_digest_authorization
      (strL "GET / HTTP/1.1\r\nAuthorization: Digest username=\"Mufasa\", realm=\"r\", nonce=\"n1\", uri=\"/\", response=\"abc\"")
      (strL "Mufasa") (strL "pw") (strL "r") (fun _ _ => true) (some 5) =
      .error .noOpaque ∧
    (afterFirst authSep
      (strL "GET / HTTP/1.1\r\nAuthorization: Digest username=\"Mufasa\", realm=\"r\", nonce=\"n1\", uri=\"/\", response=\"abc\"")).map
      (fun tl => hmGet (parseKVs tl) (strL "nc")) = some none ∧
    (Except.error DigestErr.noOpaque : Except DigestErr Bool) ≠ .ok false := by
  decide

/-- C2 (amended): with `last_counter = Some N` and all six required keys
present, a request with no `nc` key, or with an `nc` whose hexadecimal value
is `≤ N`, yields `Ok(false)` regardless of the claimed response hash; and a
request with `nc` value `N + 1` whose response hash is correct and whose
other checks pass yields `Ok(true)`. -/
theorem c2_replay_amended :
    (∀ (req u pw r : Str) (v : Str → Str → Bool) (N : Nat)
      (tl gU gR gN gUri gResp gOp : Str),
      afterFirst authSep req = some tl →
      hmGet (parseKVs tl) (strL "username") = some gU →
      hmGet (parseKVs tl) (strL "realm") = some gR →
      hmGet (parseKVs tl) (strL "nonce") = some gN →
      hmGet (parseKVs tl) (strL "uri") = some gUri →
      hmGet (parseKVs tl) (strL "response") = some gResp →
      hmGet (parseKVs tl) (strL "opaque") = some gOp →
      (hmGet (parseKVs tl) (strL "nc") = none ∨
        (∃ ns m, hmGet (parseKVs tl) (strL "nc") = some ns ∧
          parse_hex_u128 ns = some m ∧ m ≤ N)) →
      verify_digest_authorization req u pw r v (some N) = .ok false) ∧
    (∀ (req u pw r : Str) (v : Str → Str → Bool) (N : Nat)
      (tl gN gResp gOp ns q cn : Str),
      afterFirst authSep req = some tl →
      hmGet (parseKVs tl) (strL "username") = some u →
      hmGet (parseKVs tl) (strL "realm") = some r →
      hmGet (parseKVs tl) (strL "nonce") = some gN →
      hmGet (parseKVs tl) (strL "uri") = some (get_get_path req) →
      hmGet (parseKVs tl) (strL "response") = some gResp →
      hmGet (parseKVs tl) (strL "opaque") = some gOp →
      hmGet (parseKVs tl) (strL "qop") = some q →
      hmGet (parseKVs tl) (strL "nc") = some ns →
      hmGet (parseKVs tl) (strL "cnonce") = some cn →
      v gN gOp = true →
      parse_hex_u128 ns = some (N + 1) →
      gResp = digestHex (md5Bytes (utf8Encode
        (digestHex (md5Bytes (utf8Encode
            (u ++ strL ":" ++ r ++ strL ":" ++ pw))) ++
          strL ":" ++ gN ++ strL ":" ++ ns ++ strL ":" ++ cn ++ strL ":" ++
          q ++ strL ":" ++
          digestHex (md5Bytes (utf8Encode
            (strL "GET:" ++ get_get_path req)))))) →
      verify_digest_authorization req u pw r v (some N) = .ok true) := by
  constructor
  · intro req u pw r v N tl gU gR gN gUri gResp gOp htl hU hR hN hUri hResp
      hOp hnc
    have hc : containsSub authSep req = true := by rw [containsSub, htl]; rfl
    simp only [verify_digest_authorization, verify_digest_authorization_gen,
      hc, htl, hU, hR, hN, hUri, hResp, hOp]
    rw [if_neg (by simp)]
    by_cases hid : gU ≠ u ∨ gR ≠ r
    · rw [if_pos hid]
    · rw [if_neg hid]
      by_cases hv : v gN gOp = false
      · rw [if_pos hv]
      · rw [if_neg hv]
        by_cases huri : gUri ≠ get_get_path req
        · rw [if_pos huri]
        · rw [if_neg huri]
          rcases hnc with hnone | ⟨ns, m, hns, hparse, hle⟩
          · simp only [hnone]
          · simp only [hns, hparse]
            rw [if_pos hle]
  · intro req u pw r v N tl gN gResp gOp ns q cn htl hU hR hN hUri hResp hOp
      hQ hNc hCn hv hparse hhash
    have hc : containsSub authSep req = true := by rw [containsSub, htl]; rfl
    simp only [verify_digest_authorization, verify_digest_authorization_gen,
      hc, htl, hU, hR, hN, hUri, hResp, hOp, hQ, hNc, hCn]
    rw [if_neg (by simp)]
    rw [if_neg (show ¬ (u ≠ u ∨ r ≠ r) by simp)]
    rw [if_neg (by simp [hv])]
    rw [if_neg (show ¬ (get_get_path req ≠ get_get_path req) by simp)]
    simp only [hparse]
    rw [if_neg (show ¬ (N + 1 ≤ N) by omega)]
    simp only [digestResponseCheck, hhash]
    rw [show ∀ x : Str, (x == x) = true from fun x => beq_self_eq_true x]

/-- Witness for C2 (amended): the RFC 2617 worked example with
`last_counter = Some 0` and `nc = 00000001 = 0 + 1` is accepted. -/
theorem c2_replay_amended_witness :
    verify_digest_authorization (exReq hexResp) (strL "Mufasa")
      (strL "Circle Of Life") (strL "testrealm@host.com") (fun _ _ => true)
      (some 0) = .ok true :=
  c2_replay_amended.2 (exReq hexResp) (strL "Mufasa") (strL "Circle Of Life")
    (strL "testrealm@host.com") (fun _ _ => true) 0
    (strL "username=\"Mufasa\", realm=\"testrealm@host.com\", nonce=\"dcd98b7102dd2f0e8b11d0f600bfb0c093\", uri=\"/dir/index.html\", qop=auth, nc=00000001, cnonce=\"0a4f113b\", response=\"6629fae49393a05397450978507c4ef1\", opaque=\"5ccc069c403ebaf9f0171e9517f40e41\"\r\n\r\n")
    (strL "dcd98b7102dd2f0e8b11d0f600bfb0c093") hexResp
    (strL "5ccc069c403ebaf9f0171e9517f40e41") (strL "00000001") (strL "auth")
    (strL "0a4f113b")
    (by decide) (by decide) (by decide) (by decide) (by decide) (by decide)
    (by decide) (by decide) (by decide) (by decide) rfl (by decide)
    (by decide)

/-- Counterexample to C3 as stated: a request with all six required keys,
`qop` present and `nc`/`cnonce` absent (an invalid RFC 2069/2617 mix) but a
wrong username is answered with `Ok(false)` — the username check runs before
the mix check — although the claim says such a request always yields `Err`. -/
theorem c3_err_cases_counterexample :
    verify_digest_authorization
      (strL "GET / HTTP/1.1\r\nAuthorization: Digest username=\"wrong\", realm=\"r\", nonce=\"n1\", uri=\"/\", qop=auth, response=\"abc\", opaque=\"op\"")
      (strL "Mufasa") (strL "pw") (strL "r") (fun _ _ => true) none =
      .ok false ∧
    (afterFirst authSep
      (strL "GET / HTTP/1.1\r\nAuthorization: Digest username=\"wrong\", realm=\"r\", nonce=\"n1\", uri=\"/\", qop=auth, response=\"abc\", opaque=\"op\"")).map
      (fun tl => (hmGet (parseKVs tl) (strL "qop"),
        hmGet (parseKVs tl) (strL "nc"),
        hmGet (parseKVs tl) (strL "cnonce"))) =
      some (some (strL "auth"), none, none) ∧
    (Except.ok false : Except DigestErr Bool) ≠ .error .invalidRfcMix := by
  decide

/-- C3 (amended): exact characterization of the `Err` outcomes of
`verify_digest_authorization`, respecting the order of its checks.  No
Digest header yields `Ok(false)`, never `Err`; a missing required key yields
the corresponding `Err`; an unparsable `nc` with a last counter supplied
yields `Err` only if the identity, verifier and uri checks passed first; an
invalid RFC 2069/2617 mix (`qop`/`nc`/`cnonce` only partially present)
yields `Err` only if those checks and the counter gate passed first; and
**every** `Err` arises from a missing key, an unparsable `nc` under a last
counter, or a partial `qop`/`nc`/`cnonce` mix. -/
theorem c3_err_exact :
    (∀ (req u pw r : Str) (v : Str → Str → Bool) (lc : Option Nat),
      containsSub authSep req = false →
      verify_digest_authorization req u pw r v lc = .ok false) ∧
    (∀ (req u pw r : Str) (v : Str → Str → Bool) (lc : Option Nat) (tl : Str),
      afterFirst authSep req = some tl →
      hmGet (parseKVs tl) (strL "username") = none →
      verify_digest_authorization req u pw r v lc = .error .noUsername) ∧
    (∀ (req u pw r : Str) (v : Str → Str → Bool) (lc : Option Nat)
      (tl gU : Str),
      afterFirst authSep req = some tl →
      hmGet (parseKVs tl) (strL "username") = some gU →
      hmGet (parseKVs tl) (strL "realm") = none →
      verify_digest_authorization req u pw r v lc = .error .noRealm) ∧
    (∀ (req u pw r : Str) (v : Str → Str → Bool) (lc : Option Nat)
      (tl gU gR : Str),
      afterFirst authSep req = some tl →
      hmGet (parseKVs tl) (strL "username") = some gU →
      hmGet (parseKVs tl) (strL "realm") = some gR →
      hmGet (parseKVs tl) (strL "nonce") = none →
      verify_digest_authorization req u pw r v lc = .error .noNonce) ∧
    (∀ (req u pw r : Str) (v : Str → Str → Bool) (lc : Option Nat)
      (tl gU gR gNon : Str),
      afterFirst authSep req = some tl →
      hmGet (parseKVs tl) (strL "username") = some gU →
      hmGet (parseKVs tl) (strL "realm") = some gR →
      hmGet (parseKVs tl) (strL "nonce") = some gNon →
      hmGet (parseKVs tl) (strL "uri") = none →
      verify_digest_authorization req u pw r v lc = .error .noUri) ∧
    (∀ (req u pw r : Str) (v : Str → Str → Bool) (lc : Option Nat)
      (tl gU gR gNon gUri : Str),
      afterFirst authSep req = some tl →
      hmGet (parseKVs tl) (strL "username") = some gU →
      hmGet (parseKVs tl) (strL "realm") = some gR →
      hmGet (parseKVs tl) (strL "nonce") = some gNon →
      hmGet (parseKVs tl) (strL "uri") = some gUri →
      hmGet (parseKVs tl) (strL "response") = none →
      verify_digest_authorization req u pw r v lc = .error .noResponse) ∧
    (∀ (req u pw r : Str) (v : Str → Str → Bool) (lc : Option Nat)
      (tl gU gR gNon gUri gResp : Str),
      afterFirst authSep req = some tl →
      hmGet (parseKVs tl) (strL "username") = some gU →
      hmGet (parseKVs tl) (strL "realm") = some gR →
      hmGet (parseKVs tl) (strL "nonce") = some gNon →
      hmGet (parseKVs tl) (strL "uri") = some gUri →
      hmGet (parseKVs tl) (strL "response") = some gResp →
      hmGet (parseKVs tl) (strL "opaque") = none →
      verify_digest_authorization req u pw r v lc = .error .noOpaque) ∧
    (∀ (req u pw r : Str) (v : Str → Str → Bool) (N : Nat)
      (tl gNon gResp gOp ns : Str),
      afterFirst authSep req = some tl →
      hmGet (parseKVs tl) (strL "username") = some u →
      hmGet (parseKVs tl) (strL "realm") = some r →
      hmGet (parseKVs tl) (strL "nonce") = some gNon →
      hmGet (parseKVs tl) (strL "uri") = some (get_get_path req) →
      hmGet (parseKVs tl) (strL "response") = some gResp →
      hmGet (parseKVs tl) (strL "opaque") = some gOp →
      v gNon gOp = true →
      hmGet (parseKVs tl) (strL "nc") = some ns →
      parse_hex_u128 ns = none →
      verify_digest_authorization req u pw r v (some N) =
        .error .ncNotAnInt) ∧
    (∀ (req u pw r : Str) (v : Str → Str → Bool) (lc : Option Nat)
      (tl gNon gResp gOp : Str),
      afterFirst authSep req = some tl →
      hmGet (parseKVs tl) (strL "username") = some u →
      hmGet (parseKVs tl) (strL "realm") = some r →
      hmGet (parseKVs tl) (strL "nonce") = some gNon →
      hmGet (parseKVs tl) (strL "uri") = some (get_get_path req) →
      hmGet (parseKVs tl) (strL "response") = some gResp →
      hmGet (parseKVs tl) (strL "opaque") = some gOp →
      v gNon gOp = true →
      (lc = none ∨ (∃ N ns m, lc = some N ∧
        hmGet (parseKVs tl) (strL "nc") = some ns ∧
        parse_hex_u128 ns = some m ∧ N < m)) →
      ¬ (hmGet (parseKVs tl) (strL "qop") ≠ none ∧
         hmGet (parseKVs tl) (strL "nc") ≠ none ∧
         hmGet (parseKVs tl) (strL "cnonce") ≠ none) →
      ¬ (hmGet (parseKVs tl) (strL "qop") = none ∧
         hmGet (parseKVs tl) (strL "nc") = none ∧
         hmGet (parseKVs tl) (strL "cnonce") = none) →
      verify_digest_authorization req u pw r v lc =
        .error .invalidRfcMix) ∧
    (∀ (req u pw r : Str) (v : Str → Str → Bool) (lc : Option Nat)
      (e : DigestErr),
      verify_digest_authorization req u pw r v lc = .error e →
      ∃ tl, afterFirst authSep req = some tl ∧
        (hmGet (parseKVs tl) (strL "username") = none ∨
         hmGet (parseKVs tl) (strL "realm") = none ∨
         hmGet (parseKVs tl) (strL "nonce") = none ∨
         hmGet (parseKVs tl) (strL "uri") = none ∨
         hmGet (parseKVs tl) (strL "response") = none ∨
         hmGet (parseKVs tl) (strL "opaque") = none ∨
         (lc ≠ none ∧ ∃ ns, hmGet (parseKVs tl) (strL "nc") = some ns ∧
           parse_hex_u128 ns = none) ∨
         (¬ (hmGet (parseKVs tl) (strL "qop") ≠ none ∧
             hmGet (parseKVs tl) (strL "nc") ≠ none ∧
             hmGet (parseKVs tl) (strL "cnonce") ≠ none) ∧
          ¬ (hmGet (parseKVs tl) (strL "qop") = none ∧
             hmGet (parseKVs tl) (strL "nc") = none ∧
             hmGet (parseKVs tl) (strL "cnonce") = none)))) := by
  refine ⟨?_, ?_, ?_, ?_, ?_, ?_, ?_, ?_, ?_, ?_⟩
  · intro req u pw r v lc hc
    rw [verify_digest_authorization, verify_digest_authorization_gen,
      if_pos hc]
  · intro req u pw r v lc tl htl hU
    have hc : containsSub authSep req = true := by rw [containsSub, htl]; rfl
    simp only [verify_digest_authorization, verify_digest_authorization_gen,
      hc, htl, hU]
    rw [if_neg (by simp)]
  · intro req u pw r v lc tl gU htl hU hR
    have hc : containsSub authSep req = true := by rw [containsSub, htl]; rfl
    simp only [verify_digest_authorization, verify_digest_authorization_gen,
      hc, htl, hU, hR]
    rw [if_neg (by simp)]
  · intro req u pw r v lc tl gU gR htl hU hR hN
    have hc : containsSub authSep req = true := by rw [containsSub, htl]; rfl
    simp only [verify_digest_authorization, verify_digest_authorization_gen,
      hc, htl, hU, hR, hN]
    rw [if_neg (by simp)]
  · intro req u pw r v lc tl gU gR gNon htl hU hR hN hUri
    have hc : containsSub authSep req = true := by rw [containsSub, htl]; rfl
    simp only [verify_digest_authorization, verify_digest_authorization_gen,
      hc, htl, hU, hR, hN, hUri]
    rw [if_neg (by simp)]
  · intro req u pw r v lc tl gU gR gNon gUri htl hU hR hN hUri hResp
    have hc : containsSub authSep req = true := by rw [containsSub, htl]; rfl
    simp only [verify_digest_authorization, verify_digest_authorization_gen,
      hc, htl, hU, hR, hN, hUri, hResp]
    rw [if_neg (by simp)]
  · intro req u pw r v lc tl gU gR gNon gUri gResp htl hU hR hN hUri hResp hOp
    have hc : containsSub authSep req = true := by rw [containsSub, htl]; rfl
    simp only [verify_digest_authorization, verify_digest_authorization_gen,
      hc, htl, hU, hR, hN, hUri, hResp, hOp]
    rw [if_neg (by simp)]
  · intro req u pw r v N tl gNon gResp gOp ns htl hU hR hN hUri hResp hOp hv
      hNc hparse
    have hc : containsSub authSep req = true := by rw [containsSub, htl]; rfl
    simp only [verify_digest_authorization, verify_digest_authorization_gen,
      hc, htl, hU, hR, hN, hUri, hResp, hOp, hNc, hparse]
    rw [if_neg (by simp)]
    rw [if_neg (show ¬ (u ≠ u ∨ r ≠ r) by simp)]
    rw [if_neg (by simp [hv])]
    rw [if_neg (show ¬ (get_get_path req ≠ get_get_path req) by simp)]
  · intro req u pw r v lc tl gNon gResp gOp htl hU hR hN hUri hResp hOp hv
      hgate hmix1 hmix2
    have hc : containsSub authSep req = true := by rw [containsSub, htl]; rfl
    simp only [verify_digest_authorization, verify_digest_authorization_gen,
      hc, htl, hU, hR, hN, hUri, hResp, hOp]
    rw [if_neg (by simp)]
    rw [if_neg (show ¬ (u ≠ u ∨ r ≠ r) by simp)]
    rw [if_neg (by simp [hv])]
    rw [if_neg (show ¬ (get_get_path req ≠ get_get_path req) by simp)]
    have hcheck : digestResponseCheck md5Bytes req u pw r gNon gResp
        (hmGet (parseKVs tl) (strL "qop")) (hmGet (parseKVs tl) (strL "nc"))
        (hmGet (parseKVs tl) (strL "cnonce")) = .error .invalidRfcMix := by
      cases hQ : hmGet (parseKVs tl) (strL "qop") with
      | none =>
        cases hNc : hmGet (parseKVs tl) (strL "nc") with
        | none =>
          cases hCn : hmGet (parseKVs tl) (strL "cnonce") with
          | none => exact absurd ⟨hQ, hNc, hCn⟩ hmix2
          | some cn => rfl
        | some ns => rfl
      | some q =>
        cases hNc : hmGet (parseKVs tl) (strL "nc") with
        | none => rfl
        | some ns =>
          cases hCn : hmGet (parseKVs tl) (strL "cnonce") with
          | none => rfl
          | some cn =>
            exact absurd ⟨by simp [hQ], by simp [hNc], by simp [hCn]⟩ hmix1
    rcases hgate with hnone | ⟨N, ns, m, hlc, hNc, hparse, hlt⟩
    · subst hnone
      exact hcheck
    · subst hlc
      simp only [hNc, hparse]
      rw [if_neg (show ¬ (m ≤ N) by omega)]
      exact hNc ▸ hcheck
  · intro req u pw r v lc e he
    by_cases hc : containsSub authSep req = false
    · rw [verify_digest_authorization, verify_digest_authorization_gen,
        if_pos hc] at he
      exact absurd he (by simp)
    · have hc' : containsSub authSep req = true := by
        revert hc
        cases containsSub authSep req <;> simp
      obtain ⟨tl, htl⟩ : ∃ tl, afterFirst authSep req = some tl := by
        rw [containsSub] at hc'
        exact Option.isSome_iff_exists.mp hc'
      refine ⟨tl, htl, ?_⟩
      simp only [verify_digest_authorization, verify_digest_authorization_gen,
        hc', htl] at he
      rw [if_neg (by simp)] at he
      cases hU : hmGet (parseKVs tl) (strL "username") with
      | none => exact Or.inl rfl
      | some gU =>
      simp only [hU] at he
      cases hR : hmGet (parseKVs tl) (strL "realm") with
      | none => exact Or.inr (Or.inl rfl)
      | some gR =>
      simp only [hR] at he
      cases hN : hmGet (parseKVs tl) (strL "nonce") with
      | none => exact Or.inr (Or.inr (Or.inl rfl))
      | some gNon =>
      simp only [hN] at he
      cases hUri : hmGet (parseKVs tl) (strL "uri") with
      | none => exact Or.inr (Or.inr (Or.inr (Or.inl rfl)))
      | some gUri =>
      simp only [hUri] at he
      cases hResp : hmGet (parseKVs tl) (strL "response") with
      | none => exact Or.inr (Or.inr (Or.inr (Or.inr (Or.inl rfl))))
      | some gResp =>
      simp only [hResp] at he
      cases hOp : hmGet (parseKVs tl) (strL "opaque") with
      | none => exact Or.inr (Or.inr (Or.inr (Or.inr (Or.inr (Or.inl rfl)))))
      | some gOp =>
      simp only [hOp] at he
      by_cases hid : gU ≠ u ∨ gR ≠ r
      · rw [if_pos hid] at he
        exact absurd he (by simp)
      · rw [if_neg hid] at he
        by_cases hv : v gNon gOp = false
        · rw [if_pos hv] at he
          exact absurd he (by simp)
        · rw [if_neg hv] at he
          by_cases huri : gUri ≠ get_get_path req
          · rw [if_pos huri] at he
            exact absurd he (by simp)
          · rw [if_neg huri] at he
            have hmixOf : ∀ (hQ hNcv hCn : Option Str),
                digestResponseCheck md5Bytes req u pw r gNon gResp hQ hNcv hCn
                  = .error e →
                (¬ (hQ ≠ none ∧ hNcv ≠ none ∧ hCn ≠ none) ∧
                 ¬ (hQ = none ∧ hNcv = none ∧ hCn = none)) := by
              intro hQ hNcv hCn hchk
              cases hQ with
              | none =>
                cases hNcv with
                | none =>
                  cases hCn with
                  | none => simp [digestResponseCheck] at hchk
                  | some cn =>
                    exact ⟨fun hall => hall.1 rfl,
                      fun hnone => Option.noConfusion hnone.2.2⟩
                | some ns =>
                  exact ⟨fun hall => hall.1 rfl,
                    fun hnone => Option.noConfusion hnone.2.1⟩
              | some q =>
                cases hNcv with
                | none =>
                  exact ⟨fun hall => hall.2.1 rfl,
                    fun hnone => Option.noConfusion hnone.1⟩
                | some ns =>
                  cases hCn with
                  | none =>
                    exact ⟨fun hall => hall.2.2 rfl,
                      fun hnone => Option.noConfusion hnone.1⟩
                  | some cn => simp [digestResponseCheck] at hchk
            cases lc with
            | none =>
              exact Or.inr (Or.inr (Or.inr (Or.inr (Or.inr (Or.inr
                (Or.inr (hmixOf _ _ _ he)))))))
            | some N =>
              cases hNc : hmGet (parseKVs tl) (strL "nc") with
              | none =>
                simp only [hNc] at he
                exact absurd he (by simp)
              | some ns =>
                simp only [hNc] at he
                cases hp : parse_hex_u128 ns with
                | none =>
                  exact Or.inr (Or.inr (Or.inr (Or.inr (Or.inr (Or.inr
                    (Or.inl ⟨by simp, ns, rfl, hp⟩))))))
                | some m =>
                  simp only [hp] at he
                  by_cases hle : m ≤ N
                  · rw [if_pos hle] at he
                    exact absurd he (by simp)
                  · rw [if_neg hle] at he
                    exact Or.inr (Or.inr (Or.inr (Or.inr (Or.inr (Or.inr
                      (Or.inr (hmixOf _ _ _ he)))))))


/-- Witness for C3 (amended): a Digest header missing only `opaque` is
answered with the missing-opaque error. -/
theorem c3_err_exact_witness :
    verify_digest_authorization
      (strL "GET / HTTP/1.1\r\nAuthorization: Digest username=\"Mufasa\", realm=\"r\", nonce=\"n1\", uri=\"/\", response=\"abc\"")
      (strL "Mufasa") (strL "pw") (strL "r") (fun _ _ => true) none =
      .error .noOpaque :=
  c3_err_exact.2.2.2.2.2.2.1
    (strL "GET / HTTP/1.1\r\nAuthorization: Digest username=\"Mufasa\", realm=\"r\", nonce=\"n1\", uri=\"/\", response=\"abc\"")
    (strL "Mufasa") (strL "pw") (strL "r") (fun _ _ => true) none
    (strL "username=\"Mufasa\", realm=\"r\", nonce=\"n1\", uri=\"/\", response=\"abc\"")
    (strL "Mufasa") (strL "r") (strL "n1") (strL "/") (strL "abc")
    (by decide) (by decide) (by decide) (by decide) (by decide) (by decide)
    (by decide)

theorem get_get_path_snd (t0 t1 rest : Str) (h0 : ' ' ∉ t0) (h1 : ' ' ∉ t1) :
    get_get_path (t0 ++ ' ' :: (t1 ++ ' ' :: rest)) = t1 := by
  rw [get_get_path, splitChar_sep_append h0, splitChar_sep_append h1]
  simp

theorem set_ne_self {l : Str} {i : Nat} {c : Char} (h : i < l.length)
    (hc : c ≠ l.get ⟨i, h⟩) : l.set i c ≠ l := by
  intro he
  apply hc
  have h1 : (l.set i c)[i]? = some c := List.getElem?_set_self h
  rw [he] at h1
  have h2 : l[i]? = some (l.get ⟨i, h⟩) := by
    rw [List.getElem?_eq_getElem h]
    rfl
  rw [h1] at h2
  exact Option.some.inj h2

theorem concat_quote_ne {d s : Str} (h : s.getLast? ≠ some '"') :
    d ++ ['"'] ≠ s := by
  intro he
  apply h
  rw [← he]
  exact List.getLast?_concat d

theorem exReq_afterFirst (resp : Str) :
    afterFirst authSep (exReq resp) = some (exP1 ++ (resp ++ exP2)) := by
  have hA : authSep = 'A' :: strL "uthorization: Digest " := by decide
  have hshape : exReq resp =
      strL "GET /dir/index.html HTTP/1.1\r\nHost: localhost\r\n" ++
        (authSep ++ (exP1 ++ (resp ++ exP2))) := by
    show strL "GET /dir/index.html HTTP/1.1\r\nHost: localhost\r\nAuthorization: Digest username=\"Mufasa\", realm=\"testrealm@host.com\", nonce=\"dcd98b7102dd2f0e8b11d0f600bfb0c093\", uri=\"/dir/index.html\", qop=auth, nc=00000001, cnonce=\"0a4f113b\", response=\"" ++
      resp ++ exP2 = _
    rw [(by decide : strL "GET /dir/index.html HTTP/1.1\r\nHost: localhost\r\nAuthorization: Digest username=\"Mufasa\", realm=\"testrealm@host.com\", nonce=\"dcd98b7102dd2f0e8b11d0f600bfb0c093\", uri=\"/dir/index.html\", qop=auth, nc=00000001, cnonce=\"0a4f113b\", response=\"" =
      strL "GET /dir/index.html HTTP/1.1\r\nHost: localhost\r\n" ++
        (authSep ++ exP1))]
    simp [List.append_assoc]
  rw [hshape, hA]
  rw [afterFirst_skip (by decide)]
  rw [← hA]
  exact afterFirst_sep_append (by decide) _

theorem parseKVpair_response {resp : Str} (heq : '=' ∉ resp) :
    parseKVpair (strL " response=\"" ++ (resp ++ ['"'])) =
      (strL "response", resp) := by
  have hstep : strL " response=\"" ++ (resp ++ ['"']) =
      ' ' :: (strL "response=\"" ++ (resp ++ ['"'])) := by
    rw [(by decide : strL " response=\"" = ' ' :: strL "response=\"")]
    rfl
  rw [parseKVpair, hstep, trimStr_cons_space]
  have htrim : trimStr (strL "response=\"" ++ (resp ++ ['"'])) =
      strL "response=\"" ++ (resp ++ ['"']) := by
    apply trimStr_eq_self
    · intro c hc
      rw [(by decide : strL "response=\"" = 'r' :: strL "esponse=\"")] at hc
      rw [List.cons_append, List.head?_cons] at hc
      cases hc
      decide
    · intro c hc
      rw [← List.append_assoc] at hc
      rw [List.getLast?_concat] at hc
      cases hc
      decide
  rw [htrim]
  have hsegs : splitChar '=' (strL "response=\"" ++ (resp ++ ['"'])) =
      [strL "response", '"' :: (resp ++ ['"'])] := by
    rw [(by decide : strL "response=\"" =
      strL "response" ++ '=' :: ['"'])]
    rw [List.append_assoc]
    show splitChar '=' (strL "response" ++ '=' :: ('"' :: (resp ++ ['"']))) = _
    rw [splitChar_sep_append (by decide)]
    rw [splitChar_no_sep (by
      intro hm
      rcases List.mem_cons.mp hm with h | h
      · exact absurd h.symm (by decide)
      · rcases List.mem_append.mp h with h2 | h2
        · exact heq h2
        · exact absurd (List.mem_singleton.mp h2) (by decide))]
  rw [hsegs]
  show (strL "response", stripQuotes ('"' :: (resp ++ ['"']))) = _
  simp [stripQuotes, stripPreChar, stripSufChar_append]

theorem parseKVpair_response_cut {t : Str}
    (h : ∀ x ∈ t, x ≠ '=' ∧ x ≠ '"' ∧ isRustWs x = false) :
    parseKVpair (strL " response=\"" ++ t) = (strL "response", '"' :: t) := by
  have hstep : strL " response=\"" ++ t = ' ' :: (strL "response=\"" ++ t) := by
    rw [(by decide : strL " response=\"" = ' ' :: strL "response=\"")]
    rfl
  rw [parseKVpair, hstep, trimStr_cons_space]
  have htrim : trimStr (strL "response=\"" ++ t) = strL "response=\"" ++ t := by
    apply trimStr_eq_self
    · intro c hc
      rw [(by decide : strL "response=\"" = 'r' :: strL "esponse=\"")] at hc
      rw [List.cons_append, List.head?_cons] at hc
      cases hc
      decide
    · intro c hc
      rcases t.eq_nil_or_concat' with rfl | ⟨ys, y, rfl⟩
      · rw [List.append_nil] at hc
        rw [(by decide : (strL "response=\"").getLast? = some '"')] at hc
        cases hc
        decide
      · rw [← List.append_assoc, List.getLast?_concat] at hc
        cases hc
        exact (h c (by simp)).2.2
  rw [htrim]
  have hsegs : splitChar '=' (strL "response=\"" ++ t) =
      [strL "response", '"' :: t] := by
    rw [(by decide : strL "response=\"" =
      strL "response" ++ '=' :: ['"'])]
    rw [List.append_assoc]
    show splitChar '=' (strL "response" ++ '=' :: ('"' :: t)) = _
    rw [splitChar_sep_append (by decide)]
    rw [splitChar_no_sep (by
      intro hm
      rcases List.mem_cons.mp hm with h1 | h1
      · exact absurd h1.symm (by decide)
      · exact (h _ h1).1 rfl)]
  rw [hsegs]
  show (strL "response", stripQuotes ('"' :: t)) = _
  have hsuf : stripSufChar '"' t = none := by
    apply stripSufChar_none
    intro c hc
    rcases t.eq_nil_or_concat' with rfl | ⟨ys, y, rfl⟩
    · cases hc
    · rw [List.getLast?_concat] at hc
      cases hc
      exact (h c (by simp)).2.1
  simp [stripQuotes, stripPreChar, hsuf]

theorem parseKVpair_response_eqsign {t d : Str}
    (ht : ∀ x ∈ t, x ≠ '=' ∧ x ≠ '"')
    (hd : '=' ∉ d) :
    parseKVpair (strL " response=\"" ++ ((t ++ '=' :: d) ++ ['"'])) =
      (strL "response", '"' :: t) := by
  have hstep : strL " response=\"" ++ ((t ++ '=' :: d) ++ ['"']) =
      ' ' :: (strL "response=\"" ++ ((t ++ '=' :: d) ++ ['"'])) := by
    rw [(by decide : strL " response=\"" = ' ' :: strL "response=\"")]
    rfl
  rw [parseKVpair, hstep, trimStr_cons_space]
  have htrim : trimStr (strL "response=\"" ++ ((t ++ '=' :: d) ++ ['"'])) =
      strL "response=\"" ++ ((t ++ '=' :: d) ++ ['"']) := by
    apply trimStr_eq_self
    · intro c hc
      rw [(by decide : strL "response=\"" = 'r' :: strL "esponse=\"")] at hc
      rw [List.cons_append, List.head?_cons] at hc
      cases hc
      decide
    · intro c hc
      rw [← List.append_assoc, List.getLast?_concat] at hc
      cases hc
      decide
  rw [htrim]
  have hsegs : splitChar '=' (strL "response=\"" ++ ((t ++ '=' :: d) ++ ['"'])) =
      [strL "response", '"' :: t, d ++ ['"']] := by
    rw [(by decide : strL "response=\"" =
      strL "response" ++ '=' :: ['"'])]
    rw [List.append_assoc]
    show splitChar '='
      (strL "response" ++ '=' :: ('"' :: ((t ++ '=' :: d) ++ ['"']))) = _
    rw [splitChar_sep_append (by decide)]
    rw [show ('"' :: ((t ++ '=' :: d) ++ ['"'])) =
      ('"' :: t) ++ '=' :: (d ++ ['"']) from by simp]
    rw [splitChar_sep_append (by
      intro hm
      rcases List.mem_cons.mp hm with h1 | h1
      · exact absurd h1.symm (by decide)
      · exact (ht _ h1).1 rfl)]
    rw [splitChar_no_sep (by
      intro hm
      rcases List.mem_append.mp hm with h1 | h1
      · exact hd h1
      · exact absurd (List.mem_singleton.mp h1) (by decide))]
  rw [hsegs]
  show (strL "response", stripQuotes ('"' :: t)) = _
  have hsuf : stripSufChar '"' t = none := by
    apply stripSufChar_none
    intro c hc
    rcases t.eq_nil_or_concat' with rfl | ⟨ys, y, rfl⟩
    · cases hc
    · rw [List.getLast?_concat] at hc
      cases hc
      exact (ht c (by simp)).2
  simp [stripQuotes, stripPreChar, hsuf]

theorem parseKVpair_junk {d : Str}
    (h : ∀ x ∈ d, x ≠ '=' ∧ isRustWs x = false) :
    parseKVpair (d ++ ['"']) = (d ++ ['"'], []) := by
  rw [parseKVpair]
  have htrim : trimStr (d ++ ['"']) = d ++ ['"'] := by
    apply trimStr_eq_self
    · intro c hc
      cases d with
      | nil =>
        rw [List.nil_append, List.head?_cons] at hc
        cases hc
        decide
      | cons x xs =>
        rw [List.cons_append, List.head?_cons] at hc
        cases hc
        exact (h c (by simp)).2
    · intro c hc
      rw [List.getLast?_concat] at hc
      cases hc
      decide
  rw [htrim]
  have hsegs : splitChar '=' (d ++ ['"']) = [d ++ ['"']] := by
    apply splitChar_no_sep
    intro hm
    rcases List.mem_append.mp hm with h1 | h1
    · exact (h _ h1).1 rfl
    · exact absurd (List.mem_singleton.mp h1) (by decide)
  rw [hsegs]
  show (d ++ ['"'], stripQuotes []) = _
  rfl

theorem hmGet_cons_ne {k1 v1 : Str} {rest : List (Str × Str)} {k : Str}
    (h : k1 ≠ k) :
    hmGet ((k1, v1) :: rest) k = hmGet rest k := by
  rw [hmGet]
  cases hr : hmGet rest k with
  | some v => rfl
  | none => simp [h]

theorem hmGet_middle_ne {k1 v1 : Str} {l2 : List (Str × Str)} {k : Str}
    (l1 : List (Str × Str)) (h : k1 ≠ k) :
    hmGet (l1 ++ (k1, v1) :: l2) k = hmGet (l1 ++ l2) k := by
  induction l1 with
  | nil => exact hmGet_cons_ne h
  | cons p r ih =>
    obtain ⟨a, b⟩ := p
    rw [List.cons_append, List.cons_append, hmGet, ih, hmGet]

theorem hmGet_exKVsJ_eq (t d k : Str) (hk : k.getLast? ≠ some '"') :
    hmGet (exKVsJ t d) k = hmGet (exKVs ('"' :: t)) k :=
  hmGet_middle_ne
    [(strL "username", strL "Mufasa"),
     (strL "realm", strL "testrealm@host.com"),
     (strL "nonce", strL "dcd98b7102dd2f0e8b11d0f600bfb0c093"),
     (strL "uri", strL "/dir/index.html"),
     (strL "qop", strL "auth"),
     (strL "nc", strL "00000001"),
     (strL "cnonce", strL "0a4f113b"),
     (strL "response", '"' :: t)] (concat_quote_ne hk)

theorem exTail_noAU {resp : Str} (hAU : noAU resp = true) :
    noAU (exP1 ++ (resp ++ exP2)) = true := by
  have h2 : noAU (resp ++ exP2) = true := by
    apply noAU_append hAU (by decide)
    intro x y hx hy
    have hy2 : y = '"' := by
      rw [show exP2.head? = some '"' from by decide] at hy
      exact (Option.some.inj hy).symm
    subst hy2
    simp
  apply noAU_append (by decide) h2
  intro x y hx hy
  have hx2 : x = '"' := by
    rw [show exP1.getLast? = some '"' from by decide] at hx
    exact (Option.some.inj hx).symm
  subst hx2
  simp

theorem exReq_path (resp : Str) :
    get_get_path (exReq resp) = strL "/dir/index.html" := by
  have hs : exReq resp = strL "GET" ++ ' ' :: (strL "/dir/index.html" ++ ' ' ::
      (strL "HTTP/1.1\r\nHost: localhost\r\nAuthorization: Digest username=\"Mufasa\", realm=\"testrealm@host.com\", nonce=\"dcd98b7102dd2f0e8b11d0f600bfb0c093\", uri=\"/dir/index.html\", qop=auth, nc=00000001, cnonce=\"0a4f113b\", response=\"" ++
        (resp ++ exP2))) := by
    show strL "GET /dir/index.html HTTP/1.1\r\nHost: localhost\r\nAuthorization: Digest username=\"Mufasa\", realm=\"testrealm@host.com\", nonce=\"dcd98b7102dd2f0e8b11d0f600bfb0c093\", uri=\"/dir/index.html\", qop=auth, nc=00000001, cnonce=\"0a4f113b\", response=\"" ++
      resp ++ exP2 = _
    rw [(by decide : strL "GET /dir/index.html HTTP/1.1\r\nHost: localhost\r\nAuthorization: Digest username=\"Mufasa\", realm=\"testrealm@host.com\", nonce=\"dcd98b7102dd2f0e8b11d0f600bfb0c093\", uri=\"/dir/index.html\", qop=auth, nc=00000001, cnonce=\"0a4f113b\", response=\"" =
      strL "GET" ++ ' ' :: (strL "/dir/index.html" ++ ' ' ::
        strL "HTTP/1.1\r\nHost: localhost\r\nAuthorization: Digest username=\"Mufasa\", realm=\"testrealm@host.com\", nonce=\"dcd98b7102dd2f0e8b11d0f600bfb0c093\", uri=\"/dir/index.html\", qop=auth, nc=00000001, cnonce=\"0a4f113b\", response=\""))]
    simp [List.append_assoc]
  rw [hs]
  exact get_get_path_snd _ _ _ (by decide) (by decide)

theorem quote_cons_ne_hexResp (t : Str) : ('"' :: t) ≠ hexResp := by
  intro h
  have h2 : ('"' :: t).head? = hexResp.head? := by rw [h]
  rw [List.head?_cons, show hexResp.head? = some '6' from rfl] at h2
  exact absurd (Option.some.inj h2) (by decide)

theorem hmGet_exKVs (rv : Str) :
    hmGet (exKVs rv) (strL "username") = some (strL "Mufasa") ∧
    hmGet (exKVs rv) (strL "realm") = some (strL "testrealm@host.com") ∧
    hmGet (exKVs rv) (strL "nonce") =
      some (strL "dcd98b7102dd2f0e8b11d0f600bfb0c093") ∧
    hmGet (exKVs rv) (strL "uri") = some (strL "/dir/index.html") ∧
    hmGet (exKVs rv) (strL "qop") = some (strL "auth") ∧
    hmGet (exKVs rv) (strL "nc") = some (strL "00000001") ∧
    hmGet (exKVs rv) (strL "cnonce") = some (strL "0a4f113b") ∧
    hmGet (exKVs rv) (strL "response") = some rv ∧
    hmGet (exKVs rv) (strL "opaque") =
      some (strL "5ccc069c403ebaf9f0171e9517f40e41") := by
  refine ⟨?_, ?_, ?_, ?_, ?_, ?_, ?_, ?_, ?_⟩ <;> simp [exKVs, hmGet, strL]

theorem parseKVs_exTail {resp rv : Str} (hAU : noAU resp = true)
    (hck : ',' ∉ resp)
    (h8 : parseKVpair (strL " response=\"" ++ (resp ++ ['"'])) =
      (strL "response", rv)) :
    parseKVs (exP1 ++ (resp ++ exP2)) = exKVs rv := by
  rw [parseKVs, takeUntil_eq_self (noAU_noOcc (exTail_noAU hAU))]
  have hshape : exP1 ++ (resp ++ exP2) =
      strL "username=\"Mufasa\"" ++ ',' ::
      (strL " realm=\"testrealm@host.com\"" ++ ',' ::
      (strL " nonce=\"dcd98b7102dd2f0e8b11d0f600bfb0c093\"" ++ ',' ::
      (strL " uri=\"/dir/index.html\"" ++ ',' ::
      (strL " qop=auth" ++ ',' ::
      (strL " nc=00000001" ++ ',' ::
      (strL " cnonce=\"0a4f113b\"" ++ ',' ::
      (strL " response=\"" ++ ((resp ++ ['"']) ++ ',' ::
        strL " opaque=\"5ccc069c403ebaf9f0171e9517f40e41\"\r\n\r\n")))))))) := by
    rw [(by decide : exP1 =
      strL "username=\"Mufasa\"" ++ ',' ::
      (strL " realm=\"testrealm@host.com\"" ++ ',' ::
      (strL " nonce=\"dcd98b7102dd2f0e8b11d0f600bfb0c093\"" ++ ',' ::
      (strL " uri=\"/dir/index.html\"" ++ ',' ::
      (strL " qop=auth" ++ ',' ::
      (strL " nc=00000001" ++ ',' ::
      (strL " cnonce=\"0a4f113b\"" ++ ',' :: strL " response=\"")))))))]
    rw [(by decide : exP2 = '"' :: ',' ::
      strL " opaque=\"5ccc069c403ebaf9f0171e9517f40e41\"\r\n\r\n")]
    simp [List.append_assoc]
  rw [hshape]
  rw [splitChar_sep_append (by decide), splitChar_sep_append (by decide),
    splitChar_sep_append (by decide), splitChar_sep_append (by decide),
    splitChar_sep_append (by decide), splitChar_sep_append (by decide),
    splitChar_sep_append (by decide)]
  rw [← List.append_assoc]
  rw [splitChar_sep_append (by
    intro hm
    rcases List.mem_append.mp hm with h1 | h1
    · exact absurd h1 (by decide)
    · rcases List.mem_append.mp h1 with h2 | h2
      · exact hck h2
      · exact absurd (List.mem_singleton.mp h2) (by decide))]
  rw [splitChar_no_sep (by decide :
    (',' : Char) ∉ strL " opaque=\"5ccc069c403ebaf9f0171e9517f40e41\"\r\n\r\n")]
  simp only [List.map_cons, List.map_nil]
  rw [h8]
  rw [(by decide : parseKVpair (strL "username=\"Mufasa\"") =
    (strL "username", strL "Mufasa"))]
  rw [(by decide : parseKVpair (strL " realm=\"testrealm@host.com\"") =
    (strL "realm", strL "testrealm@host.com"))]
  rw [(by decide :
    parseKVpair (strL " nonce=\"dcd98b7102dd2f0e8b11d0f600bfb0c093\"") =
    (strL "nonce", strL "dcd98b7102dd2f0e8b11d0f600bfb0c093"))]
  rw [(by decide : parseKVpair (strL " uri=\"/dir/index.html\"") =
    (strL "uri", strL "/dir/index.html"))]
  rw [(by decide : parseKVpair (strL " qop=auth") = (strL "qop", strL "auth"))]
  rw [(by decide : parseKVpair (strL " nc=00000001") =
    (strL "nc", strL "00000001"))]
  rw [(by decide : parseKVpair (strL " cnonce=\"0a4f113b\"") =
    (strL "cnonce", strL "0a4f113b"))]
  rw [(by decide :
    parseKVpair (strL " opaque=\"5ccc069c403ebaf9f0171e9517f40e41\"\r\n\r\n") =
    (strL "opaque", strL "5ccc069c403ebaf9f0171e9517f40e41"))]
  rfl

theorem parseKVs_exTailJ {t d : Str}
    (hAU : noAU (t ++ ',' :: d) = true)
    (ht : ∀ x ∈ t, x ≠ '=' ∧ x ≠ '"' ∧ x ≠ ',' ∧ isRustWs x = false)
    (hd : ∀ x ∈ d, x ≠ '=' ∧ x ≠ ',' ∧ isRustWs x = false) :
    parseKVs (exP1 ++ ((t ++ ',' :: d) ++ exP2)) = exKVsJ t d := by
  rw [parseKVs, takeUntil_eq_self (noAU_noOcc (exTail_noAU hAU))]
  have hshape : exP1 ++ ((t ++ ',' :: d) ++ exP2) =
      strL "username=\"Mufasa\"" ++ ',' ::
      (strL " realm=\"testrealm@host.com\"" ++ ',' ::
      (strL " nonce=\"dcd98b7102dd2f0e8b11d0f600bfb0c093\"" ++ ',' ::
      (strL " uri=\"/dir/index.html\"" ++ ',' ::
      (strL " qop=auth" ++ ',' ::
      (strL " nc=00000001" ++ ',' ::
      (strL " cnonce=\"0a4f113b\"" ++ ',' ::
      (strL " response=\"" ++ (t ++ ',' :: ((d ++ ['"']) ++ ',' ::
        strL " opaque=\"5ccc069c403ebaf9f0171e9517f40e41\"\r\n\r\n"))))))))) := by
    rw [(by decide : exP1 =
      strL "username=\"Mufasa\"" ++ ',' ::
      (strL " realm=\"testrealm@host.com\"" ++ ',' ::
      (strL " nonce=\"dcd98b7102dd2f0e8b11d0f600bfb0c093\"" ++ ',' ::
      (strL " uri=\"/dir/index.html\"" ++ ',' ::
      (strL " qop=auth" ++ ',' ::
      (strL " nc=00000001" ++ ',' ::
      (strL " cnonce=\"0a4f113b\"" ++ ',' :: strL " response=\"")))))))]
    rw [(by decide : exP2 = '"' :: ',' ::
      strL " opaque=\"5ccc069c403ebaf9f0171e9517f40e41\"\r\n\r\n")]
    simp [List.append_assoc]
  rw [hshape]
  rw [splitChar_sep_append (by decide), splitChar_sep_append (by decide),
    splitChar_sep_append (by decide), splitChar_sep_append (by decide),
    splitChar_sep_append (by decide), splitChar_sep_append (by decide),
    splitChar_sep_append (by decide)]
  rw [← List.append_assoc]
  rw [splitChar_sep_append (by
    intro hm
    rcases List.mem_append.mp hm with h1 | h1
    · exact absurd h1 (by decide)
    · exact (ht _ h1).2.2.1 rfl)]
  rw [splitChar_sep_append (by
    intro hm
    rcases List.mem_append.mp hm with h1 | h1
    · exact (hd _ h1).2.1 rfl
    · exact absurd (List.mem_singleton.mp h1) (by decide))]
  rw [splitChar_no_sep (by decide :
    (',' : Char) ∉ strL " opaque=\"5ccc069c403ebaf9f0171e9517f40e41\"\r\n\r\n")]
  simp only [List.map_cons, List.map_nil]
  rw [parseKVpair_response_cut (fun x hx => ⟨(ht x hx).1, (ht x hx).2.1,
    (ht x hx).2.2.2⟩)]
  rw [parseKVpair_junk (fun x hx => ⟨(hd x hx).1, (hd x hx).2.2⟩)]
  rw [(by decide : parseKVpair (strL "username=\"Mufasa\"") =
    (strL "username", strL "Mufasa"))]
  rw [(by decide : parseKVpair (strL " realm=\"testrealm@host.com\"") =
    (strL "realm", strL "testrealm@host.com"))]
  rw [(by decide :
    parseKVpair (strL " nonce=\"dcd98b7102dd2f0e8b11d0f600bfb0c093\"") =
    (strL "nonce", strL "dcd98b7102dd2f0e8b11d0f600bfb0c093"))]
  rw [(by decide : parseKVpair (strL " uri=\"/dir/index.html\"") =
    (strL "uri", strL "/dir/index.html"))]
  rw [(by decide : parseKVpair (strL " qop=auth") = (strL "qop", strL "auth"))]
  rw [(by decide : parseKVpair (strL " nc=00000001") =
    (strL "nc", strL "00000001"))]
  rw [(by decide : parseKVpair (strL " cnonce=\"0a4f113b\"") =
    (strL "cnonce", strL "0a4f113b"))]
  rw [(by decide :
    parseKVpair (strL " opaque=\"5ccc069c403ebaf9f0171e9517f40e41\"\r\n\r\n") =
    (strL "opaque", strL "5ccc069c403ebaf9f0171e9517f40e41"))]
  rfl

theorem verify_exReq_rv (resp rv : Str)
    (hU : hmGet (parseKVs (exP1 ++ (resp ++ exP2))) (strL "username") =
      some (strL "Mufasa"))
    (hR : hmGet (parseKVs (exP1 ++ (resp ++ exP2))) (strL "realm") =
      some (strL "testrealm@host.com"))
    (hN : hmGet (parseKVs (exP1 ++ (resp ++ exP2))) (strL "nonce") =
      some (strL "dcd98b7102dd2f0e8b11d0f600bfb0c093"))
    (hUri : hmGet (parseKVs (exP1 ++ (resp ++ exP2))) (strL "uri") =
      some (strL "/dir/index.html"))
    (hQ : hmGet (parseKVs (exP1 ++ (resp ++ exP2))) (strL "qop") =
      some (strL "auth"))
    (hNc : hmGet (parseKVs (exP1 ++ (resp ++ exP2))) (strL "nc") =
      some (strL "00000001"))
    (hCn : hmGet (parseKVs (exP1 ++ (resp ++ exP2))) (strL "cnonce") =
      some (strL "0a4f113b"))
    (hResp : hmGet (parseKVs (exP1 ++ (resp ++ exP2))) (strL "response") =
      some rv)
    (hOp : hmGet (parseKVs (exP1 ++ (resp ++ exP2))) (strL "opaque") =
      some (strL "5ccc069c403ebaf9f0171e9517f40e41")) :
    verify_digest_authorization (exReq resp) (strL "Mufasa")
      (strL "Circle Of Life") (strL "testrealm@host.com") (fun _ _ => true)
      none = .ok (rv == hexResp) := by
  have htl := exReq_afterFirst resp
  have hc : containsSub authSep (exReq resp) = true := by
    rw [containsSub, htl]
    rfl
  simp only [verify_digest_authorization, verify_digest_authorization_gen, hc,
    htl, hU, hR, hN, hUri, hQ, hNc, hCn, hResp, hOp]
  rw [if_neg (by simp)]
  rw [if_neg (show ¬ (strL "Mufasa" ≠ strL "Mufasa" ∨
    strL "testrealm@host.com" ≠ strL "testrealm@host.com") by simp)]
  rw [if_neg (by simp)]
  rw [if_neg (show ¬ (strL "/dir/index.html" ≠ get_get_path (exReq resp)) by
    rw [exReq_path]
    simp)]
  simp only [digestResponseCheck]
  rw [exReq_path]
  rw [show digestHex (md5Bytes (utf8Encode
      (digestHex (md5Bytes (utf8Encode (strL "Mufasa" ++ strL ":" ++
          strL "testrealm@host.com" ++ strL ":" ++ strL "Circle Of Life"))) ++
        strL ":" ++ strL "dcd98b7102dd2f0e8b11d0f600bfb0c093" ++ strL ":" ++
        strL "00000001" ++ strL ":" ++ strL "0a4f113b" ++ strL ":" ++
        strL "auth" ++ strL ":" ++
        digestHex (md5Bytes (utf8Encode
          (strL "GET:" ++ strL "/dir/index.html")))))) = hexResp
    from by decide]

/-- C1: for the RFC 2617 worked example (username `Mufasa`, realm
`testrealm@host.com`, password `Circle Of Life`, nonce
`dcd98b7102dd2f0e8b11d0f600bfb0c093`, nc `00000001`, cnonce `0a4f113b`,
qop `auth`, uri `/dir/index.html`, matching request path, an
always-accepting nonce/opaque verifier and no last counter),
`verify_digest_authorization` answers `Ok(true)` exactly for the response
value `6629fae49393a05397450978507c4ef1`, and answers `Ok(false)` for every
request identical except that the `response` value differs in a single
character. -/
theorem c1_worked_example :
    (verify_digest_authorization (exReq hexResp) (strL "Mufasa")
      (strL "Circle Of Life") (strL "testrealm@host.com") (fun _ _ => true)
      none = .ok true) ∧
    (∀ (i : Nat) (c : Char) (hi : i < hexResp.length),
      c ≠ hexResp.get ⟨i, hi⟩ →
      verify_digest_authorization (exReq (hexResp.set i c)) (strL "Mufasa")
        (strL "Circle Of Life") (strL "testrealm@host.com") (fun _ _ => true)
        none = .ok false) := by
  constructor
  · obtain ⟨g1, g2, g3, g4, g5, g6, g7, g8, g9⟩ := hmGet_exKVs hexResp
    have hkvs : parseKVs (exP1 ++ (hexResp ++ exP2)) = exKVs hexResp :=
      parseKVs_exTail (by decide) (by decide)
        (parseKVpair_response (by decide))
    rw [verify_exReq_rv hexResp hexResp
      (by rw [hkvs]; exact g1) (by rw [hkvs]; exact g2)
      (by rw [hkvs]; exact g3) (by rw [hkvs]; exact g4)
      (by rw [hkvs]; exact g5) (by rw [hkvs]; exact g6)
      (by rw [hkvs]; exact g7) (by rw [hkvs]; exact g8)
      (by rw [hkvs]; exact g9)]
    rw [beq_self_eq_true]
  · intro i c hi hc
    have hmemHex : ∀ x ∈ hexResp, x ≠ 'A' ∧ x ≠ 'u' := by decide
    have hAU : noAU (hexResp.set i c) = true := noAU_set hmemHex i c
    have hhex4 : ∀ x ∈ hexResp,
        x ≠ '=' ∧ x ≠ '"' ∧ x ≠ ',' ∧ isRustWs x = false := by decide
    by_cases hcomma : c = ','
    · subst hcomma
      have hdecomp : hexResp.set i ',' =
          hexResp.take i ++ ',' :: hexResp.drop (i + 1) := by
        rw [List.set_eq_take_append_cons_drop, if_pos hi]
      have ht : ∀ x ∈ hexResp.take i,
          x ≠ '=' ∧ x ≠ '"' ∧ x ≠ ',' ∧ isRustWs x = false :=
        fun x hx => hhex4 x (List.mem_of_mem_take hx)
      have hd : ∀ x ∈ hexResp.drop (i + 1),
          x ≠ '=' ∧ x ≠ ',' ∧ isRustWs x = false := fun x hx =>
        ⟨(hhex4 x (List.mem_of_mem_drop hx)).1,
         (hhex4 x (List.mem_of_mem_drop hx)).2.2.1,
         (hhex4 x (List.mem_of_mem_drop hx)).2.2.2⟩
      rw [hdecomp] at hAU
      have hkvs : parseKVs (exP1 ++
          ((hexResp.take i ++ ',' :: hexResp.drop (i + 1)) ++ exP2)) =
          exKVsJ (hexResp.take i) (hexResp.drop (i + 1)) :=
        parseKVs_exTailJ hAU ht hd
      obtain ⟨g1, g2, g3, g4, g5, g6, g7, g8, g9⟩ :=
        hmGet_exKVs ('"' :: hexResp.take i)
      rw [hdecomp]
      rw [verify_exReq_rv (hexResp.take i ++ ',' :: hexResp.drop (i + 1))
        ('"' :: hexResp.take i)
        (by rw [hkvs, hmGet_exKVsJ_eq _ _ _ (by decide)]; exact g1)
        (by rw [hkvs, hmGet_exKVsJ_eq _ _ _ (by decide)]; exact g2)
        (by rw [hkvs, hmGet_exKVsJ_eq _ _ _ (by decide)]; exact g3)
        (by rw [hkvs, hmGet_exKVsJ_eq _ _ _ (by decide)]; exact g4)
        (by rw [hkvs, hmGet_exKVsJ_eq _ _ _ (by decide)]; exact g5)
        (by rw [hkvs, hmGet_exKVsJ_eq _ _ _ (by decide)]; exact g6)
        (by rw [hkvs, hmGet_exKVsJ_eq _ _ _ (by decide)]; exact g7)
        (by rw [hkvs, hmGet_exKVsJ_eq _ _ _ (by decide)]; exact g8)
        (by rw [hkvs, hmGet_exKVsJ_eq _ _ _ (by decide)]; exact g9)]
      rw [beq_eq_false_iff_ne.mpr (quote_cons_ne_hexResp _)]
    · by_cases heq : c = '='
      · subst heq
        have hdecomp : hexResp.set i '=' =
            hexResp.take i ++ '=' :: hexResp.drop (i + 1) := by
          rw [List.set_eq_take_append_cons_drop, if_pos hi]
        have hck : ',' ∉ hexResp.take i ++ '=' :: hexResp.drop (i + 1) := by
          intro hm
          rcases List.mem_append.mp hm with h1 | h1
          · exact (hhex4 _ (List.mem_of_mem_take h1)).2.2.1 rfl
          · rcases List.mem_cons.mp h1 with h2 | h2
            · exact absurd h2 (by decide)
            · exact (hhex4 _ (List.mem_of_mem_drop h2)).2.2.1 rfl
        have h8 : parseKVpair (strL " response=\"" ++
            ((hexResp.take i ++ '=' :: hexResp.drop (i + 1)) ++ ['"'])) =
            (strL "response", '"' :: hexResp.take i) :=
          parseKVpair_response_eqsign
            (fun x hx => ⟨(hhex4 x (List.mem_of_mem_take hx)).1,
              (hhex4 x (List.mem_of_mem_take hx)).2.1⟩)
            (fun hm => (hhex4 _ (List.mem_of_mem_drop hm)).1 rfl)
        rw [hdecomp] at hAU
        have hkvs : parseKVs (exP1 ++
            ((hexResp.take i ++ '=' :: hexResp.drop (i + 1)) ++ exP2)) =
            exKVs ('"' :: hexResp.take i) :=
          parseKVs_exTail hAU hck h8
        obtain ⟨g1, g2, g3, g4, g5, g6, g7, g8, g9⟩ :=
          hmGet_exKVs ('"' :: hexResp.take i)
        rw [hdecomp]
        rw [verify_exReq_rv (hexResp.take i ++ '=' :: hexResp.drop (i + 1))
          ('"' :: hexResp.take i)
          (by rw [hkvs]; exact g1) (by rw [hkvs]; exact g2)
          (by rw [hkvs]; exact g3) (by rw [hkvs]; exact g4)
          (by rw [hkvs]; exact g5) (by rw [hkvs]; exact g6)
          (by rw [hkvs]; exact g7) (by rw [hkvs]; exact g8)
          (by rw [hkvs]; exact g9)]
        rw [beq_eq_false_iff_ne.mpr (quote_cons_ne_hexResp _)]
      · have hck : ',' ∉ hexResp.set i c := by
          intro hm
          rcases List.mem_or_eq_of_mem_set hm with h1 | h1
          · exact absurd h1 (by decide)
          · exact hcomma h1.symm
        have heqn : '=' ∉ hexResp.set i c := by
          intro hm
          rcases List.mem_or_eq_of_mem_set hm with h1 | h1
          · exact absurd h1 (by decide)
          · exact heq h1.symm
        have hkvs : parseKVs (exP1 ++ (hexResp.set i c ++ exP2)) =
            exKVs (hexResp.set i c) :=
          parseKVs_exTail hAU hck (parseKVpair_response heqn)
        obtain ⟨g1, g2, g3, g4, g5, g6, g7, g8, g9⟩ :=
          hmGet_exKVs (hexResp.set i c)
        rw [verify_exReq_rv (hexResp.set i c) (hexResp.set i c)
          (by rw [hkvs]; exact g1) (by rw [hkvs]; exact g2)
          (by rw [hkvs]; exact g3) (by rw [hkvs]; exact g4)
          (by rw [hkvs]; exact g5) (by rw [hkvs]; exact g6)
          (by rw [hkvs]; exact g7) (by rw [hkvs]; exact g8)
          (by rw [hkvs]; exact g9)]
        rw [beq_eq_false_iff_ne.mpr (set_ne_self hi hc)]

/-- Witness for C1: the hypotheses of the rejection part are satisfiable —
mutating the first character of the correct response from `6` to `0` yields
a request that is rejected with `Ok(false)`. -/
theorem c1_worked_example_witness :
    0 < hexResp.length ∧
    verify_digest_authorization (exReq (hexResp.set 0 '0')) (strL "Mufasa")
      (strL "Circle Of Life") (strL "testrealm@host.com") (fun _ _ => true)
      none = .ok false :=
  ⟨by decide, c1_worked_example.2 0 '0' (by decide) (by decide)⟩
